import Mathlib

/-
A shallow embedding of src/src/core/ee/vu_jit64.cpp (DobieStation VU JIT backend).

The embedding mirrors the source file: the two register-allocator pools
(int_regs / xmm_regs), the per-opcode dispatcher handlers, flush_regs,
recompile_block, and the ABI bridge (prepare_abi / call_abi_func).
Emitter calls are recorded in an emission trace; a separate interpreter
(runTrace) gives the run-time semantics of the straight-line emitted code.
Guest integer register cells are uint16_t in the VU state, so stores into
them keep the low 16 bits; the byte-level overlap of a wide store onto
neighbouring cells is outside the observables treated here and is not
modelled. The printf diagnostics of the source have no state effect and are
omitted.
-/

set_option maxRecDepth 10000

namespace VUJIT

/- Standard x86-64 register encodings of the external emitter enum REG_64. -/

def RAX : Nat := 0

def RCX : Nat := 1

def RDX : Nat := 2

def RBX : Nat := 3

def RSP : Nat := 4

def RBP : Nat := 5

def RSI : Nat := 6

def RDI : Nat := 7

def R8 : Nat := 8

def R9 : Nat := 9

/-- One allocation bookkeeping entry of a pool (struct with fields vu_reg,
used, locked, age). The source leaves vu_reg uninitialised at reset; it is
never read while used is false, so it starts at 0 here. -/
structure RegSlot where
  vu_reg : Nat := 0
  used : Bool := false
  locked : Bool := false
  age : Nat := 0
deriving DecidableEq, Repr

def noSlot : RegSlot := {}

/-- Abstract addresses of guest-state cells handed to load_addr:
the int register file, the vector register file, and the PC field. -/
inductive GuestAddr where
  | intGpr (i : Nat)
  | vfGpr (i : Nat)
  | pc
deriving DecidableEq, Repr

/-- A host general-purpose register holds either plain data or an address
produced by load_addr. -/
inductive HVal where
  | int (n : Nat)
  | address (a : GuestAddr)
deriving DecidableEq, Repr

def HVal.asInt : HVal → Nat
  | HVal.int n => n
  | HVal.address _ => 0

/-- The emitter primitives used by the source, one constructor per call. -/
inductive HostInstr where
  | loadAddr (a : GuestAddr) (r : Nat)
  | loadImm64 (v : Nat) (r : Nat)
  | mov16RegImm (imm : Nat) (r : Nat)
  | mov16Reg (src : Nat) (dest : Nat)
  | mov32MiMem (imm : Nat) (addrReg : Nat)
  | mov32ToMem (src : Nat) (addrReg : Nat)
  | mov64Oi (imm : Nat) (r : Nat)
  | mov64Mr (src : Nat) (dest : Nat)
  | mov64ToMem (src : Nat) (addrReg : Nat)
  | mov64FromMem (addrReg : Nat) (dest : Nat)
  | movapsToMem (xmm : Nat) (addrReg : Nat)
  | movapsFromMem (addrReg : Nat) (xmm : Nat)
  | shl32RegImm (shift : Nat) (r : Nat)
  | add16RegImm (imm : Nat) (r : Nat)
  | push (r : Nat)
  | pop (r : Nat)
  | callAddr (a : Nat)
  | ret
deriving DecidableEq, Repr

/-- Emission-trace entries: emitted host instructions interleaved with the
calls into the code-cache collaborator. -/
inductive Emit where
  | i (ins : HostInstr)
  | cacheAllocBlock (pc : Nat)
  | cacheSetRX
deriving DecidableEq, Repr

/-- The mutable state of VU_JIT64: the two 16-slot pools, the ABI argument
counters, and the emission trace produced so far. -/
structure JITState where
  int_regs : List RegSlot
  xmm_regs : List RegSlot
  abi_int_count : Nat
  abi_xmm_count : Nat
  code : List Emit
deriving DecidableEq, Repr

def emit (s : JITState) (es : List Emit) : JITState :=
  { s with code := s.code ++ es }

/-- The cache-hit scan of alloc_int_reg / alloc_sse_reg: first index whose
slot is used and bound to the requested guest register. -/
def findHitFrom : List RegSlot → Nat → Nat → Option Nat
  | [], _, _ => none
  | s :: rest, v, i =>
      if s.used && s.vu_reg == v then some i else findHitFrom rest v (i + 1)

/-- The aging pass: every used slot of the pool gets age + 1. -/
def ageUsed (regs : List RegSlot) : List RegSlot :=
  regs.map (fun s => if s.used then { s with age := s.age + 1 } else s)

/-- Target-selection loop of alloc_int_reg: skip locked slots, first unused
slot wins immediately, otherwise keep the used slot of strictly greatest
age seen so far (ties keep the lower index). -/
def pickFromInt : List RegSlot → Nat → Nat → Nat → Nat
  | [], _, reg, _ => reg
  | s :: rest, i, reg, acc =>
      if s.locked then pickFromInt rest (i + 1) reg acc
      else if !s.used then i
      else if acc < s.age then pickFromInt rest (i + 1) i s.age
      else pickFromInt rest (i + 1) reg acc

/-- Target-selection loop of alloc_sse_reg: identical except that it has no
locked-slot check. -/
def pickFromSSE : List RegSlot → Nat → Nat → Nat → Nat
  | [], _, reg, _ => reg
  | s :: rest, i, reg, acc =>
      if !s.used then i
      else if acc < s.age then pickFromSSE rest (i + 1) i s.age
      else pickFromSSE rest (i + 1) reg acc

/-- VU_JIT64::alloc_int_reg. Errors::die is modelled as Except.error. -/
def alloc_int_reg (s : JITState) (vi_reg : Nat) (load_state : Bool) :
    Except String (Nat × JITState) :=
  if 16 ≤ vi_reg then
    Except.error "[VU_JIT64] Alloc Int error"
  else
    match findHitFrom s.int_regs vi_reg 0 with
    | some i => Except.ok (i, s)
    | none =>
        let regs1 := ageUsed s.int_regs
        let reg := pickFromInt regs1 0 0 0
        let slot := regs1.getD reg noSlot
        let s1 : JITState := { s with int_regs := regs1 }
        let s2 :=
          if slot.used then
            emit s1 [Emit.i (HostInstr.loadAddr (GuestAddr.intGpr slot.vu_reg) RAX),
                     Emit.i (HostInstr.mov64ToMem reg RAX)]
          else s1
        let s3 :=
          if load_state then
            emit s2 [Emit.i (HostInstr.loadAddr (GuestAddr.intGpr vi_reg) RAX),
                     Emit.i (HostInstr.mov64FromMem RAX reg)]
          else s2
        let s4 : JITState :=
          { s3 with int_regs :=
              s3.int_regs.set reg { slot with vu_reg := vi_reg, used := true, age := 0 } }
        Except.ok (reg, s4)

/-- VU_JIT64::alloc_sse_reg. The guest id bound is 32 and the selection loop
does not look at the locked flag, exactly as in the source. -/
def alloc_sse_reg (s : JITState) (vf_reg : Nat) (load_state : Bool) :
    Except String (Nat × JITState) :=
  if 32 ≤ vf_reg then
    Except.error "[VU_JIT64] Alloc SSE error"
  else
    match findHitFrom s.xmm_regs vf_reg 0 with
    | some i => Except.ok (i, s)
    | none =>
        let regs1 := ageUsed s.xmm_regs
        let xmm := pickFromSSE regs1 0 0 0
        let slot := regs1.getD xmm noSlot
        let s1 : JITState := { s with xmm_regs := regs1 }
        let s2 :=
          if slot.used then
            emit s1 [Emit.i (HostInstr.loadAddr (GuestAddr.vfGpr slot.vu_reg) RAX),
                     Emit.i (HostInstr.movapsToMem xmm RAX)]
          else s1
        let s3 :=
          if load_state then
            emit s2 [Emit.i (HostInstr.loadAddr (GuestAddr.vfGpr vf_reg) RAX),
                     Emit.i (HostInstr.movapsFromMem RAX xmm)]
          else s2
        let s4 : JITState :=
          { s3 with xmm_regs :=
              s3.xmm_regs.set xmm { slot with vu_reg := vf_reg, used := true, age := 0 } }
        Except.ok (xmm, s4)

/-- First half of the flush_regs loop body for index i: spill the xmm slot
when it is used and bound to a nonzero guest id. -/
def flush_step_xmm (s : JITState) (i : Nat) : JITState :=
  if (s.xmm_regs.getD i noSlot).used = true ∧
      (s.xmm_regs.getD i noSlot).vu_reg ≠ 0 then
    { s with
      xmm_regs := s.xmm_regs.set i { s.xmm_regs.getD i noSlot with used := false },
      code := s.code ++
        [Emit.i (HostInstr.loadAddr
          (GuestAddr.vfGpr (s.xmm_regs.getD i noSlot).vu_reg) RAX),
         Emit.i (HostInstr.movapsToMem i RAX)] }
  else s

/-- Second half of the flush_regs loop body for index i: spill the int slot
when it is used and bound to a nonzero guest id. -/
def flush_step_int (s : JITState) (i : Nat) : JITState :=
  if (s.int_regs.getD i noSlot).used = true ∧
      (s.int_regs.getD i noSlot).vu_reg ≠ 0 then
    { s with
      int_regs := s.int_regs.set i { s.int_regs.getD i noSlot with used := false },
      code := s.code ++
        [Emit.i (HostInstr.loadAddr
          (GuestAddr.intGpr (s.int_regs.getD i noSlot).vu_reg) RAX),
         Emit.i (HostInstr.mov64ToMem i RAX)] }
  else s

/-- Body of the flush_regs loop for one index i: spill the xmm slot and
then the int slot, in each case only when used and bound to a nonzero
guest id. -/
def flush_step (s : JITState) (i : Nat) : JITState :=
  flush_step_int (flush_step_xmm s i) i

/-- VU_JIT64::flush_regs: the loop over all 16 slot indices. -/
def flush_regs (s : JITState) : JITState :=
  (List.range 16).foldl flush_step s

/-- IR opcodes of the dispatcher switch; Other stands for every opcode that
hits the default (fatal) case. -/
inductive IROpcode where
  | LoadConst
  | MoveIntReg
  | Jump
  | JumpAndLink
  | VMulVectorByScalar
  | JumpIndirect
  | AddUnsignedImm
  | Other
deriving DecidableEq, Repr

/-- An IR instruction: opcode tag and operand fields, mirroring the
accessors get_dest, get_source, get_source2, get_jump_dest,
get_return_addr. -/
structure IRInstruction where
  op : IROpcode
  dest : Nat := 0
  source : Nat := 0
  source2 : Nat := 0
  jump_dest : Nat := 0
  return_addr : Nat := 0
deriving DecidableEq, Repr

/-- An IR block: the drainable instruction sequence plus the precomputed
cycle count. -/
structure IRBlock where
  instrs : List IRInstruction
  cycle_count : Nat
deriving DecidableEq, Repr

/-- Modelled from the spec: the declaration of alloc_int_reg / alloc_sse_reg
lives in vu_jit64.hpp, which is not part of src; call sites that omit
load_state use the default value of that header. The spec rows for
BranchIndirect and AddImmediateUnsigned say the source register is
acquired with load, so the default is true. -/
def defaultLoadState : Bool := true

/-- VU_JIT64::load_const. -/
def load_const (s : JITState) (instr : IRInstruction) :
    Except String JITState := do
  let (dest, s1) ← alloc_int_reg s instr.dest false
  pure (emit s1 [Emit.i (HostInstr.mov16RegImm instr.source dest)])

/-- VU_JIT64::move_int_reg. The source passes the REG_64 value dest where a
bool load_state is expected, so load_state is the truth value of dest ≠ 0. -/
def move_int_reg (s : JITState) (instr : IRInstruction) :
    Except String JITState := do
  let (dest, s1) ← alloc_int_reg s instr.dest false
  let (source, s2) ← alloc_int_reg s1 instr.source (decide (dest ≠ 0))
  pure (emit s2 [Emit.i (HostInstr.mov16Reg source dest)])

/-- VU_JIT64::jump: store the literal jump target into the PC field. -/
def jump (s : JITState) (instr : IRInstruction) : JITState :=
  emit s [Emit.i (HostInstr.loadAddr GuestAddr.pc RAX),
          Emit.i (HostInstr.mov32MiMem instr.jump_dest RAX)]

/-- VU_JIT64::jump_and_link. -/
def jump_and_link (s : JITState) (instr : IRInstruction) :
    Except String JITState := do
  let s1 := emit s [Emit.i (HostInstr.loadAddr GuestAddr.pc RAX),
                    Emit.i (HostInstr.mov32MiMem instr.jump_dest RAX)]
  let (link, s2) ← alloc_int_reg s1 instr.dest defaultLoadState
  pure (emit s2 [Emit.i (HostInstr.mov64Oi instr.return_addr link)])

/-- VU_JIT64::jump_indirect: shift the source register left by 3 in place,
then store it to the PC field. -/
def jump_indirect (s : JITState) (instr : IRInstruction) :
    Except String JITState := do
  let (return_reg, s1) ← alloc_int_reg s instr.source defaultLoadState
  pure (emit s1 [Emit.i (HostInstr.shl32RegImm 3 return_reg),
                 Emit.i (HostInstr.loadAddr GuestAddr.pc RAX),
                 Emit.i (HostInstr.mov32ToMem return_reg RAX)])

/-- VU_JIT64::add_unsigned_imm. -/
def add_unsigned_imm (s : JITState) (instr : IRInstruction) :
    Except String JITState := do
  let (dest, s1) ← alloc_int_reg s instr.dest false
  let (source, s2) ← alloc_int_reg s1 instr.source defaultLoadState
  pure (emit s2 [Emit.i (HostInstr.mov16Reg source dest),
                 Emit.i (HostInstr.add16RegImm instr.source2 dest)])

/-- VU_JIT64::mul_vector_by_scalar: acquires the destination vector slot and
emits nothing. The dispatcher never calls it (the call is commented out). -/
def mul_vector_by_scalar (s : JITState) (instr : IRInstruction) :
    Except String JITState := do
  let (_, s1) ← alloc_sse_reg s instr.dest false
  pure s1

/-- The dispatcher switch of recompile_block. The VMulVectorByScalar case
is a bare break in the source: the call to mul_vector_by_scalar is
commented out, so the case falls through with no effect. -/
def dispatch_instr (s : JITState) (instr : IRInstruction) :
    Except String JITState :=
  match instr.op with
  | IROpcode.LoadConst => load_const s instr
  | IROpcode.MoveIntReg => move_int_reg s instr
  | IROpcode.Jump => Except.ok (jump s instr)
  | IROpcode.JumpAndLink => jump_and_link s instr
  | IROpcode.VMulVectorByScalar => Except.ok s
  | IROpcode.JumpIndirect => jump_indirect s instr
  | IROpcode.AddUnsignedImm => add_unsigned_imm s instr
  | IROpcode.Other => Except.error "[VU_JIT64] Unknown IR instruction"

/-- The while loop of recompile_block: drain the instruction list front to
back through the dispatcher. -/
def dispatch_block : JITState → List IRInstruction → Except String JITState
  | s, [] => Except.ok s
  | s, instr :: rest => do
      let s1 ← dispatch_instr s instr
      dispatch_block s1 rest

/-- VU_JIT64::recompile_block: reserve the cache entry, emit the prologue,
drain the block, flush the pools, load the cycle count into RAX, emit the
epilogue, and finally flip the block from RW to RX. -/
def recompile_block (s : JITState) (pc : Nat) (block : IRBlock) :
    Except String JITState := do
  let s0 : JITState := { s with code := s.code ++ [Emit.cacheAllocBlock pc] }
  let s1 := emit s0 [Emit.i (HostInstr.push RBP),
                     Emit.i (HostInstr.mov64Mr RSP RBP)]
  let s2 ← dispatch_block s1 block.instrs
  let s3 := flush_regs s2
  let s4 := emit s3 [Emit.i (HostInstr.mov16RegImm block.cycle_count RAX)]
  let s5 := emit s4 [Emit.i (HostInstr.pop RBP), Emit.i HostInstr.ret]
  pure { s5 with code := s5.code ++ [Emit.cacheSetRX] }

/-- The fixed argument-register order of prepare_abi. -/
def abiArgRegs : List Nat := [RDI, RSI, RDX, RCX, R8, R9]

/-- VU_JIT64::prepare_abi: die on the seventh request, otherwise spill the
chosen argument register when a guest value lives there, load the literal
value, and advance the counter. -/
def prepare_abi (s : JITState) (value : Nat) : Except String JITState :=
  if 6 ≤ s.abi_int_count then
    Except.error "[VU_JIT64] ABI integer arguments exceeded 6!"
  else
    let arg := abiArgRegs.getD s.abi_int_count 0
    let slot := s.int_regs.getD arg noSlot
    let s1 :=
      if slot.used then
        { s with
          int_regs := s.int_regs.set arg { slot with used := false, age := 0 },
          code := s.code ++
            [Emit.i (HostInstr.loadAddr (GuestAddr.intGpr slot.vu_reg) RAX),
             Emit.i (HostInstr.mov64ToMem arg RAX)] }
      else s
    Except.ok
      { s1 with
        code := s1.code ++ [Emit.i (HostInstr.loadImm64 value arg)],
        abi_int_count := s1.abi_int_count + 1 }

/-- A sequence of prepare_abi requests. -/
def prepareSeq : JITState → List Nat → Except String JITState
  | s, [] => Except.ok s
  | s, v :: rest => do
      let s1 ← prepare_abi s v
      prepareSeq s1 rest

/-- VU_JIT64::call_abi_func: emit the call and reset both counters. -/
def call_abi_func (s : JITState) (addr : Nat) : JITState :=
  { s with
    code := s.code ++ [Emit.i (HostInstr.callAddr addr)],
    abi_int_count := 0,
    abi_xmm_count := 0 }

/-- VU_JIT64::reset: clear both pools and the ABI counters, then lock RAX
and RSP in the general-purpose pool. -/
def resetState : JITState :=
  { int_regs :=
      (((List.replicate 16 noSlot).set RAX { noSlot with locked := true }).set
        RSP { noSlot with locked := true }),
    xmm_regs := List.replicate 16 noSlot,
    abi_int_count := 0,
    abi_xmm_count := 0,
    code := [] }

/-- The run-time machine acted on by the emitted straight-line code: host
general-purpose registers, host xmm registers (opaque 128-bit payloads),
the guest integer register file, the guest vector register file, the guest
PC, and the host stack. -/
structure Machine where
  regs : Nat → HVal
  xmms : Nat → Nat
  intMem : Nat → Nat
  vfMem : Nat → Nat
  pc : Nat
  stack : List HVal

def setLow16 (old new : Nat) : Nat :=
  old / 65536 * 65536 + new % 65536

/-- A 32-bit store through an address register: the PC field is 32-bit,
a guest integer cell is uint16_t and keeps the low 16 bits. -/
def store32 (m : Machine) (target : HVal) (v : Nat) : Machine :=
  match target with
  | HVal.address GuestAddr.pc => { m with pc := v % 4294967296 }
  | HVal.address (GuestAddr.intGpr i) =>
      { m with intMem := fun k => if k = i then v % 65536 else m.intMem k }
  | _ => m

/-- A 64-bit store through an address register; a guest integer cell keeps
the low 16 bits of the stored value. -/
def store64 (m : Machine) (target : HVal) (v : Nat) : Machine :=
  match target with
  | HVal.address GuestAddr.pc => { m with pc := v % 4294967296 }
  | HVal.address (GuestAddr.intGpr i) =>
      { m with intMem := fun k => if k = i then v % 65536 else m.intMem k }
  | _ => m

/-- A 64-bit load through an address register. -/
def load64 (m : Machine) (target : HVal) : Nat :=
  match target with
  | HVal.address GuestAddr.pc => m.pc
  | HVal.address (GuestAddr.intGpr i) => m.intMem i
  | HVal.address (GuestAddr.vfGpr i) => m.vfMem i
  | HVal.int _ => 0

def setReg (m : Machine) (r : Nat) (v : HVal) : Machine :=
  { m with regs := fun k => if k = r then v else m.regs k }

/-- Semantics of one emitted host instruction. 16-bit operations keep the
upper bits of the destination register; 32-bit operations zero them. -/
def runInstr (m : Machine) (ins : HostInstr) : Machine :=
  match ins with
  | HostInstr.loadAddr a r => setReg m r (HVal.address a)
  | HostInstr.loadImm64 v r => setReg m r (HVal.int (v % 18446744073709551616))
  | HostInstr.mov16RegImm imm r =>
      setReg m r (HVal.int (setLow16 (m.regs r).asInt imm))
  | HostInstr.mov16Reg src dest =>
      setReg m dest (HVal.int (setLow16 (m.regs dest).asInt (m.regs src).asInt))
  | HostInstr.mov32MiMem imm addrReg => store32 m (m.regs addrReg) imm
  | HostInstr.mov32ToMem src addrReg =>
      store32 m (m.regs addrReg) (m.regs src).asInt
  | HostInstr.mov64Oi imm r => setReg m r (HVal.int (imm % 18446744073709551616))
  | HostInstr.mov64Mr src dest => setReg m dest (m.regs src)
  | HostInstr.mov64ToMem src addrReg =>
      store64 m (m.regs addrReg) (m.regs src).asInt
  | HostInstr.mov64FromMem addrReg dest =>
      setReg m dest (HVal.int (load64 m (m.regs addrReg)))
  | HostInstr.movapsToMem xmm addrReg =>
      match m.regs addrReg with
      | HVal.address (GuestAddr.vfGpr i) =>
          { m with vfMem := fun k => if k = i then m.xmms xmm else m.vfMem k }
      | _ => m
  | HostInstr.movapsFromMem addrReg xmm =>
      match m.regs addrReg with
      | HVal.address (GuestAddr.vfGpr i) =>
          { m with xmms := fun k => if k = xmm then m.vfMem i else m.xmms k }
      | _ => m
  | HostInstr.shl32RegImm shift r =>
      setReg m r (HVal.int ((m.regs r).asInt % 4294967296 * 2 ^ shift % 4294967296))
  | HostInstr.add16RegImm imm r =>
      setReg m r (HVal.int (setLow16 (m.regs r).asInt ((m.regs r).asInt % 65536 + imm)))
  | HostInstr.push r => { m with stack := m.regs r :: m.stack }
  | HostInstr.pop r =>
      match m.stack with
      | [] => m
      | v :: rest => { setReg m r v with stack := rest }
  | HostInstr.callAddr _ => m
  | HostInstr.ret => m

def runEmit (m : Machine) (e : Emit) : Machine :=
  match e with
  | Emit.i ins => runInstr m ins
  | Emit.cacheAllocBlock _ => m
  | Emit.cacheSetRX => m

/-- Execute an emission trace in order. -/
def runTrace (m : Machine) (tr : List Emit) : Machine :=
  tr.foldl runEmit m

def isOk {α : Type} : Except String α → Bool
  | Except.ok _ => true
  | Except.error _ => false

/-- One acquire request against one of the two pools. -/
inductive AllocReq where
  | i (id : Nat) (load : Bool)
  | x (id : Nat) (load : Bool)
deriving DecidableEq, Repr

def runReq (s : JITState) : AllocReq → Except String (Nat × JITState)
  | AllocReq.i id load => alloc_int_reg s id load
  | AllocReq.x id load => alloc_sse_reg s id load

/-- Run a sequence of acquire requests, recording each granted slot with
its request; a fatal request stops the sequence. -/
def runReqs : JITState → List AllocReq → List (AllocReq × Nat) × JITState
  | s, [] => ([], s)
  | s, r :: rest =>
      match runReq s r with
      | Except.error _ => ([], s)
      | Except.ok (n, s2) =>
          let t := runReqs s2 rest
          ((r, n) :: t.1, t.2)

/-- The lock discipline established by reset: in the general-purpose pool
exactly RAX and RSP are locked and those two slots are unused; the vector
pool has no locked slot. -/
def lockedOK (s : JITState) : Prop :=
  s.int_regs.length = 16 ∧ s.xmm_regs.length = 16 ∧
  (∀ i, i < 16 → ((s.int_regs.getD i noSlot).locked = true ↔ (i = RAX ∨ i = RSP))) ∧
  (s.int_regs.getD RAX noSlot).used = false ∧
  (s.int_regs.getD RSP noSlot).used = false ∧
  (∀ i, i < 16 → (s.xmm_regs.getD i noSlot).locked = false)

/- Concrete inputs used by the counterexamples and witnesses below. -/

def c1instr : IRInstruction := { op := IROpcode.VMulVectorByScalar, dest := 1 }

def c1block : IRBlock := { instrs := [c1instr], cycle_count := 5 }

/-- The state reached from reset by acquiring guest integer register 0:
slot 1 (RCX) used and bound to guest id 0. -/
def c2state : JITState :=
  { resetState with int_regs := resetState.int_regs.set 1 { vu_reg := 0, used := true } }

/-- A concrete machine whose host registers all hold the data value 5 and
whose guest integer file is given by f. -/
def mkIntMachine (f : Nat → Nat) : Machine :=
  { regs := fun _ => HVal.int 5, xmms := fun _ => 0, intMem := f,
    vfMem := fun _ => 0, pc := 0, stack := [] }

def c7block : IRBlock :=
  { instrs := [{ op := IROpcode.AddUnsignedImm, dest := 2, source := 1, source2 := 65535 }],
    cycle_count := 9 }

def c7mach : Machine := mkIntMachine (fun i => if i = 1 then 1 else 0)

def c7cexBlock : IRBlock :=
  { instrs := [{ op := IROpcode.AddUnsignedImm, dest := 1, source := 1, source2 := 0 }],
    cycle_count := 9 }

def c9mach : Machine := mkIntMachine (fun i => if i = 3 then 1 else 0)

def c9block : IRBlock :=
  { instrs := [{ op := IROpcode.JumpIndirect, source := 3 }], cycle_count := 2 }

def c9zmach : Machine := mkIntMachine (fun i => if i = 0 then 1 else 0)

def c9zblock : IRBlock :=
  { instrs := [{ op := IROpcode.JumpIndirect, source := 0 }], cycle_count := 2 }

/-- A state with int slot 1 bound to guest id 2, int slot 2 bound to guest
id 0, and xmm slot 0 bound to guest vector id 3, all used. -/
def c2wstate : JITState :=
  { resetState with
    int_regs := (resetState.int_regs.set 1 { vu_reg := 2, used := true }).set 2
      { vu_reg := 0, used := true },
    xmm_regs := resetState.xmm_regs.set 0 { vu_reg := 3, used := true } }

def c2wmach : Machine := mkIntMachine (fun _ => 0)

/-- The state produced by compiling c1block from reset. -/
def c8state : JITState :=
  ((recompile_block resetState 0 c1block).toOption).getD resetState

/-- The code flush_step emits for slot index i, given the two slots there. -/
def flushChunk (xs is : RegSlot) (i : Nat) : List Emit :=
  (if xs.used ∧ xs.vu_reg ≠ 0 then
    [Emit.i (HostInstr.loadAddr (GuestAddr.vfGpr xs.vu_reg) RAX),
     Emit.i (HostInstr.movapsToMem i RAX)]
  else []) ++
  (if is.used ∧ is.vu_reg ≠ 0 then
    [Emit.i (HostInstr.loadAddr (GuestAddr.intGpr is.vu_reg) RAX),
     Emit.i (HostInstr.mov64ToMem i RAX)]
  else [])

/-- The code flush_regs emits for the first n slot indices. -/
def flushCode (s : JITState) : Nat → List Emit
  | 0 => []
  | n + 1 => flushCode s n ++
      flushChunk (s.xmm_regs.getD n noSlot) (s.int_regs.getD n noSlot) n

/-- The first n iterations of the flush_regs loop. -/
def flushN (s : JITState) (n : Nat) : JITState :=
  (List.range n).foldl flush_step s

/- ------------------------------------------------------------------ -/
/- Helper lemmas.                                                     -/
/- ------------------------------------------------------------------ -/

theorem lt_length_of_getD_used (l : List RegSlot) (j : Nat)
    (h : (l.getD j noSlot).used = true) : j < l.length := by
  by_contra hc
  rw [List.getD_eq_getElem?_getD, List.getElem?_eq_none (by omega)] at h
  exact absurd h (by simp [noSlot])

theorem getD_set_ne {α : Type} (l : List α) (n m : Nat) (d x : α) (h : n ≠ m) :
    (l.set n x).getD m d = l.getD m d := by
  simp [List.getD_eq_getElem?_getD, List.getElem?_set_ne h]

theorem getD_set_self {α : Type} (l : List α) (n : Nat) (d x : α)
    (h : n < l.length) : (l.set n x).getD n d = x := by
  simp [List.getD_eq_getElem?_getD, List.getElem?_set_self, h]

theorem flushN_succ (s : JITState) (n : Nat) :
    flushN s (n + 1) = flush_step (flushN s n) n := by
  unfold flushN
  rw [List.range_succ, List.foldl_append]
  rfl

theorem flush_regs_eq_flushN (s : JITState) : flush_regs s = flushN s 16 := rfl

theorem runTrace_append (m : Machine) (a b : List Emit) :
    runTrace m (a ++ b) = runTrace (runTrace m a) b := by
  unfold runTrace
  rw [List.foldl_append]

theorem flush_step_xmm_int_regs (s : JITState) (i : Nat) :
    (flush_step_xmm s i).int_regs = s.int_regs := by
  unfold flush_step_xmm
  split <;> rfl

theorem flush_step_int_xmm_regs (s : JITState) (i : Nat) :
    (flush_step_int s i).xmm_regs = s.xmm_regs := by
  unfold flush_step_int
  split <;> rfl

theorem flush_step_xmm_code (s : JITState) (i : Nat) :
    (flush_step_xmm s i).code = s.code ++
      (if (s.xmm_regs.getD i noSlot).used = true ∧
          (s.xmm_regs.getD i noSlot).vu_reg ≠ 0 then
        [Emit.i (HostInstr.loadAddr
          (GuestAddr.vfGpr (s.xmm_regs.getD i noSlot).vu_reg) RAX),
         Emit.i (HostInstr.movapsToMem i RAX)]
      else []) := by
  unfold flush_step_xmm
  split
  · rfl
  · simp

theorem flush_step_int_code (s : JITState) (i : Nat) :
    (flush_step_int s i).code = s.code ++
      (if (s.int_regs.getD i noSlot).used = true ∧
          (s.int_regs.getD i noSlot).vu_reg ≠ 0 then
        [Emit.i (HostInstr.loadAddr
          (GuestAddr.intGpr (s.int_regs.getD i noSlot).vu_reg) RAX),
         Emit.i (HostInstr.mov64ToMem i RAX)]
      else []) := by
  unfold flush_step_int
  split
  · rfl
  · simp

theorem flush_step_xmm_xmm_regs (s : JITState) (i : Nat) :
    (flush_step_xmm s i).xmm_regs =
      (if (s.xmm_regs.getD i noSlot).used = true ∧
          (s.xmm_regs.getD i noSlot).vu_reg ≠ 0 then
        s.xmm_regs.set i { s.xmm_regs.getD i noSlot with used := false }
      else s.xmm_regs) := by
  unfold flush_step_xmm
  split
  · rfl
  · simp

theorem flush_step_int_int_regs (s : JITState) (i : Nat) :
    (flush_step_int s i).int_regs =
      (if (s.int_regs.getD i noSlot).used = true ∧
          (s.int_regs.getD i noSlot).vu_reg ≠ 0 then
        s.int_regs.set i { s.int_regs.getD i noSlot with used := false }
      else s.int_regs) := by
  unfold flush_step_int
  split
  · rfl
  · simp

theorem flush_step_int_length (s : JITState) (i : Nat) :
    (flush_step s i).int_regs.length = s.int_regs.length := by
  unfold flush_step
  rw [flush_step_int_int_regs, flush_step_xmm_int_regs]
  split <;> simp

theorem flush_step_xmm_length (s : JITState) (i : Nat) :
    (flush_step s i).xmm_regs.length = s.xmm_regs.length := by
  unfold flush_step
  rw [flush_step_int_xmm_regs, flush_step_xmm_xmm_regs]
  split <;> simp

theorem flush_step_int_other (s : JITState) (i j : Nat) (h : j ≠ i) :
    (flush_step s i).int_regs.getD j noSlot = s.int_regs.getD j noSlot := by
  unfold flush_step
  rw [flush_step_int_int_regs, flush_step_xmm_int_regs]
  split
  · exact getD_set_ne _ i j _ _ (fun he => h he.symm)
  · rfl

theorem flush_step_xmm_other (s : JITState) (i j : Nat) (h : j ≠ i) :
    (flush_step s i).xmm_regs.getD j noSlot = s.xmm_regs.getD j noSlot := by
  unfold flush_step
  rw [flush_step_int_xmm_regs, flush_step_xmm_xmm_regs]
  split
  · exact getD_set_ne _ i j _ _ (fun he => h he.symm)
  · rfl

theorem flush_step_int_self (s : JITState) (i : Nat) :
    (flush_step s i).int_regs.getD i noSlot =
      (if (s.int_regs.getD i noSlot).used = true ∧
          (s.int_regs.getD i noSlot).vu_reg ≠ 0
       then { s.int_regs.getD i noSlot with used := false }
       else s.int_regs.getD i noSlot) := by
  unfold flush_step
  rw [flush_step_int_int_regs, flush_step_xmm_int_regs]
  split
  · next hc => exact getD_set_self _ i _ _ (lt_length_of_getD_used _ _ hc.1)
  · rfl

theorem flush_step_xmm_self (s : JITState) (i : Nat) :
    (flush_step s i).xmm_regs.getD i noSlot =
      (if (s.xmm_regs.getD i noSlot).used = true ∧
          (s.xmm_regs.getD i noSlot).vu_reg ≠ 0
       then { s.xmm_regs.getD i noSlot with used := false }
       else s.xmm_regs.getD i noSlot) := by
  unfold flush_step
  rw [flush_step_int_xmm_regs, flush_step_xmm_xmm_regs]
  split
  · next hc => exact getD_set_self _ i _ _ (lt_length_of_getD_used _ _ hc.1)
  · rfl

theorem flush_step_code (s : JITState) (i : Nat) :
    (flush_step s i).code = s.code ++
      flushChunk (s.xmm_regs.getD i noSlot) (s.int_regs.getD i noSlot) i := by
  unfold flush_step
  rw [flush_step_int_code, flush_step_xmm_int_regs, flush_step_xmm_code,
    List.append_assoc]
  rfl

theorem findHitFrom_sound (l : List RegSlot) (g : Nat) :
    ∀ (k i : Nat), findHitFrom l g k = some i →
      k ≤ i ∧ i - k < l.length ∧ (l.getD (i - k) noSlot).used = true ∧
        (l.getD (i - k) noSlot).vu_reg = g := by
  induction l with
  | nil => intro k i h; simp [findHitFrom] at h
  | cons s rest ih =>
      intro k i h
      unfold findHitFrom at h
      by_cases hc : s.used && s.vu_reg == g
      · rw [if_pos hc] at h
        cases h
        simp only [Bool.and_eq_true, beq_iff_eq] at hc
        refine ⟨Nat.le_refl _, ?_, ?_, ?_⟩ <;> simp [Nat.sub_self, hc.1, hc.2]
      · rw [if_neg hc] at h
        obtain ⟨h1, h2, h3, h4⟩ := ih (k + 1) i h
        have hk : k ≤ i := Nat.le_of_succ_le h1
        have hik : i - k = (i - (k + 1)) + 1 := by omega
        refine ⟨hk, ?_, ?_, ?_⟩
        · simpa [hik] using Nat.succ_lt_succ h2
        · simpa [hik] using h3
        · simpa [hik] using h4

theorem findHitFrom_total (l : List RegSlot) (g : Nat) :
    ∀ (k j : Nat), j < l.length → (l.getD j noSlot).used = true →
      (l.getD j noSlot).vu_reg = g → ∃ i, findHitFrom l g k = some i := by
  induction l with
  | nil => intro k j h; simp at h
  | cons s rest ih =>
      intro k j hj hu hv
      unfold findHitFrom
      by_cases hc : s.used && s.vu_reg == g
      · exact ⟨k, if_pos hc⟩
      · rw [if_neg hc]
        cases j with
        | zero =>
            simp only [List.getD_cons_zero] at hu hv
            simp [hu, hv] at hc
        | succ j =>
            exact ih (k + 1) j (by simpa using Nat.lt_of_succ_lt_succ hj)
              (by simpa using hu) (by simpa using hv)

theorem findHitFrom_none_of_not_bound (l : List RegSlot) (g : Nat) :
    ∀ (k : Nat),
      (∀ j, j < l.length → ¬((l.getD j noSlot).used = true ∧
        (l.getD j noSlot).vu_reg = g)) →
      findHitFrom l g k = none := by
  induction l with
  | nil => intro k _; rfl
  | cons s rest ih =>
      intro k h
      unfold findHitFrom
      have h0 := h 0 (Nat.succ_pos _)
      simp only [List.getD_cons_zero] at h0
      have hc : (s.used && s.vu_reg == g) = false := by
        by_cases hu : s.used = true
        · have : ¬s.vu_reg = g := fun hv => h0 ⟨hu, hv⟩
          simp [hu, this]
        · simp [Bool.not_eq_true] at hu
          simp [hu]
      rw [if_neg (by simp [hc])]
      exact ih (k + 1) (fun j hj => by
        have := h (j + 1) (Nat.succ_lt_succ hj)
        simpa using this)

theorem getD_ageUsed (l : List RegSlot) :
    ∀ (k : Nat), (ageUsed l).getD k noSlot =
      (if (l.getD k noSlot).used then
        { l.getD k noSlot with age := (l.getD k noSlot).age + 1 }
      else l.getD k noSlot) := by
  induction l with
  | nil => intro k; simp [ageUsed, noSlot]
  | cons s rest ih =>
      intro k
      cases k with
      | zero => simp [ageUsed]
      | succ k => simpa [ageUsed] using ih k

theorem length_ageUsed (l : List RegSlot) : (ageUsed l).length = l.length := by
  simp [ageUsed]

/-- The selection loop of alloc_int_reg, case where an unlocked unused slot
exists: the result is the lowest-index unlocked unused slot. -/
theorem pickFromInt_unused (l : List RegSlot) :
    ∀ (i0 reg acc : Nat),
      (∃ k, k < l.length ∧ (l.getD k noSlot).locked = false ∧
        (l.getD k noSlot).used = false) →
      ∃ k, k < l.length ∧ pickFromInt l i0 reg acc = i0 + k ∧
        (l.getD k noSlot).locked = false ∧ (l.getD k noSlot).used = false ∧
        ∀ j, j < k → ((l.getD j noSlot).locked = true ∨
          (l.getD j noSlot).used = true) := by
  induction l with
  | nil =>
      intro i0 reg acc h
      obtain ⟨k, hk, -⟩ := h
      exact absurd hk (by simp)
  | cons s rest ih =>
      intro i0 reg acc h
      obtain ⟨k, hk, hl, hu⟩ := h
      by_cases hsl : s.locked = true
      · obtain ⟨k1, rfl⟩ : ∃ k1, k = k1 + 1 := by
          cases k with
          | zero => simp only [List.getD_cons_zero] at hl; simp [hsl] at hl
          | succ k1 => exact ⟨k1, rfl⟩
        obtain ⟨k2, hk2, hpick, p1, p2, p3⟩ := ih (i0 + 1) reg acc
          ⟨k1, by simpa using Nat.lt_of_succ_lt_succ hk,
            by simpa using hl, by simpa using hu⟩
        refine ⟨k2 + 1, by simpa using Nat.succ_lt_succ hk2, ?_,
          by simpa using p1, by simpa using p2, ?_⟩
        · simp only [pickFromInt, hsl, if_true]
          rw [hpick]; omega
        · intro j hj
          cases j with
          | zero => exact Or.inl (by simpa using hsl)
          | succ j1 =>
              have := p3 j1 (Nat.lt_of_succ_lt_succ hj)
              simpa using this
      · have hslf : s.locked = false := by simpa using hsl
        by_cases hsu : s.used = true
        · obtain ⟨k1, rfl⟩ : ∃ k1, k = k1 + 1 := by
            cases k with
            | zero => simp only [List.getD_cons_zero] at hu; simp [hsu] at hu
            | succ k1 => exact ⟨k1, rfl⟩
          have htail : ∃ k0, k0 < rest.length ∧
              (rest.getD k0 noSlot).locked = false ∧
              (rest.getD k0 noSlot).used = false :=
            ⟨k1, by simpa using Nat.lt_of_succ_lt_succ hk,
              by simpa using hl, by simpa using hu⟩
          by_cases hage : acc < s.age
          · obtain ⟨k2, hk2, hpick, p1, p2, p3⟩ := ih (i0 + 1) i0 s.age htail
            refine ⟨k2 + 1, by simpa using Nat.succ_lt_succ hk2, ?_,
              by simpa using p1, by simpa using p2, ?_⟩
            · simp only [pickFromInt, hslf, if_false, hsu, Bool.not_true,
                Bool.false_eq_true, decide_eq_true_eq, hage, if_true]
              rw [hpick]; omega
            · intro j hj
              cases j with
              | zero => exact Or.inr (by simpa using hsu)
              | succ j1 => simpa using p3 j1 (Nat.lt_of_succ_lt_succ hj)
          · obtain ⟨k2, hk2, hpick, p1, p2, p3⟩ := ih (i0 + 1) reg acc htail
            refine ⟨k2 + 1, by simpa using Nat.succ_lt_succ hk2, ?_,
              by simpa using p1, by simpa using p2, ?_⟩
            · simp only [pickFromInt, hslf, if_false, hsu, Bool.not_true,
                Bool.false_eq_true, decide_eq_true_eq, hage, if_true]
              rw [hpick]; omega
            · intro j hj
              cases j with
              | zero => exact Or.inr (by simpa using hsu)
              | succ j1 => simpa using p3 j1 (Nat.lt_of_succ_lt_succ hj)
        · have hsuf : s.used = false := by simpa using hsu
          refine ⟨0, Nat.succ_pos _, ?_, by simpa using hslf,
            by simpa using hsuf, by omega⟩
          simp [pickFromInt, hslf, hsuf]

/-- The selection loop of alloc_int_reg, case where every unlocked slot is
used: either the accumulator survives and every unlocked slot has age at
most the accumulator age, or the result is the unlocked used slot of
strictly greatest age, ties resolving to the lowest index. -/
theorem pickFromInt_evict (l : List RegSlot) :
    ∀ (i0 reg acc : Nat),
      (∀ k, k < l.length → (l.getD k noSlot).locked = false →
        (l.getD k noSlot).used = true) →
      (pickFromInt l i0 reg acc = reg ∧
        ∀ k, k < l.length → (l.getD k noSlot).locked = false →
          (l.getD k noSlot).age ≤ acc) ∨
      (∃ k, k < l.length ∧ pickFromInt l i0 reg acc = i0 + k ∧
        (l.getD k noSlot).locked = false ∧ (l.getD k noSlot).used = true ∧
        acc < (l.getD k noSlot).age ∧
        (∀ j, j < l.length → (l.getD j noSlot).locked = false →
          (l.getD j noSlot).age ≤ (l.getD k noSlot).age) ∧
        (∀ j, j < k → (l.getD j noSlot).locked = false →
          (l.getD j noSlot).age < (l.getD k noSlot).age)) := by
  induction l with
  | nil =>
      intro i0 reg acc _
      exact Or.inl ⟨rfl, fun k hk => absurd hk (by simp)⟩
  | cons s rest ih =>
      intro i0 reg acc hall
      have htail : ∀ k, k < rest.length → (rest.getD k noSlot).locked = false →
          (rest.getD k noSlot).used = true := by
        intro k hk hl
        have := hall (k + 1) (Nat.succ_lt_succ hk) (by simpa using hl)
        simpa using this
      by_cases hsl : s.locked = true
      · have hstep : pickFromInt (s :: rest) i0 reg acc =
            pickFromInt rest (i0 + 1) reg acc := by
          simp [pickFromInt, hsl]
        rcases ih (i0 + 1) reg acc htail with ⟨hpick, hages⟩ | ⟨k, hk, hpick, p1, p2, p3, p4, p5⟩
        · refine Or.inl ⟨by rw [hstep, hpick], ?_⟩
          intro k hk hl
          cases k with
          | zero => simp only [List.getD_cons_zero] at hl; simp [hsl] at hl
          | succ k1 =>
              have := hages k1 (by simpa using Nat.lt_of_succ_lt_succ hk) (by simpa using hl)
              simpa using this
        · refine Or.inr ⟨k + 1, by simpa using Nat.succ_lt_succ hk, ?_,
            by simpa using p1, by simpa using p2, by simpa using p3, ?_, ?_⟩
          · rw [hstep, hpick]; omega
          · intro j hj hl
            cases j with
            | zero => simp only [List.getD_cons_zero] at hl; simp [hsl] at hl
            | succ j1 =>
                have := p4 j1 (by simpa using Nat.lt_of_succ_lt_succ hj) (by simpa using hl)
                simpa using this
          · intro j hj hl
            cases j with
            | zero => simp only [List.getD_cons_zero] at hl; simp [hsl] at hl
            | succ j1 =>
                have := p5 j1 (Nat.lt_of_succ_lt_succ hj) (by simpa using hl)
                simpa using this
      · have hslf : s.locked = false := by simpa using hsl
        have hsu : s.used = true := by
          have := hall 0 (Nat.succ_pos _) (by simpa using hslf)
          simpa using this
        by_cases hage : acc < s.age
        · have hstep : pickFromInt (s :: rest) i0 reg acc =
              pickFromInt rest (i0 + 1) i0 s.age := by
            simp [pickFromInt, hslf, hsu, hage]
          rcases ih (i0 + 1) i0 s.age htail with ⟨hpick, hages⟩ | ⟨k, hk, hpick, p1, p2, p3, p4, p5⟩
          · refine Or.inr ⟨0, Nat.succ_pos _, by rw [hstep, hpick]; omega,
              by simpa using hslf, by simpa using hsu, by simpa using hage, ?_, by omega⟩
            intro j hj hl
            cases j with
            | zero => simp
            | succ j1 =>
                have := hages j1 (by simpa using Nat.lt_of_succ_lt_succ hj) (by simpa using hl)
                simpa using this
          · refine Or.inr ⟨k + 1, by simpa using Nat.succ_lt_succ hk, ?_,
              by simpa using p1, by simpa using p2, ?_, ?_, ?_⟩
            · rw [hstep, hpick]; omega
            · have : acc < s.age := hage
              simp only [List.getD_cons_succ]
              omega
            · intro j hj hl
              cases j with
              | zero =>
                  simp only [List.getD_cons_zero, List.getD_cons_succ]
                  omega
              | succ j1 =>
                  have := p4 j1 (by simpa using Nat.lt_of_succ_lt_succ hj) (by simpa using hl)
                  simpa using this
            · intro j hj hl
              cases j with
              | zero =>
                  simp only [List.getD_cons_zero, List.getD_cons_succ]
                  omega
              | succ j1 =>
                  have := p5 j1 (Nat.lt_of_succ_lt_succ hj) (by simpa using hl)
                  simpa using this
        · have hstep : pickFromInt (s :: rest) i0 reg acc =
              pickFromInt rest (i0 + 1) reg acc := by
            simp [pickFromInt, hslf, hsu, hage]
          rcases ih (i0 + 1) reg acc htail with ⟨hpick, hages⟩ | ⟨k, hk, hpick, p1, p2, p3, p4, p5⟩
          · refine Or.inl ⟨by rw [hstep, hpick], ?_⟩
            intro k hk hl
            cases k with
            | zero =>
                simp only [List.getD_cons_zero]
                omega
            | succ k1 =>
                have := hages k1 (by simpa using Nat.lt_of_succ_lt_succ hk) (by simpa using hl)
                simpa using this
          · refine Or.inr ⟨k + 1, by simpa using Nat.succ_lt_succ hk, ?_,
              by simpa using p1, by simpa using p2, by simpa using p3, ?_, ?_⟩
            · rw [hstep, hpick]; omega
            · intro j hj hl
              cases j with
              | zero =>
                  simp only [List.getD_cons_zero, List.getD_cons_succ]
                  omega
              | succ j1 =>
                  have := p4 j1 (by simpa using Nat.lt_of_succ_lt_succ hj) (by simpa using hl)
                  simpa using this
            · intro j hj hl
              cases j with
              | zero =>
                  simp only [List.getD_cons_zero, List.getD_cons_succ]
                  omega
              | succ j1 =>
                  have := p5 j1 (Nat.lt_of_succ_lt_succ hj) (by simpa using hl)
                  simpa using this

/-- The selection loop of alloc_sse_reg agrees with the one of
alloc_int_reg on any pool without locked slots. -/
theorem pickFromSSE_eq (l : List RegSlot) :
    ∀ (i0 reg acc : Nat),
      (∀ k, k < l.length → (l.getD k noSlot).locked = false) →
      pickFromSSE l i0 reg acc = pickFromInt l i0 reg acc := by
  induction l with
  | nil => intro i0 reg acc _; rfl
  | cons s rest ih =>
      intro i0 reg acc h
      have hs : s.locked = false := by
        have := h 0 (Nat.succ_pos _)
        simpa using this
      have htail : ∀ k, k < rest.length → (rest.getD k noSlot).locked = false := by
        intro k hk
        have := h (k + 1) (Nat.succ_lt_succ hk)
        simpa using this
      by_cases hsu : s.used = true
      · by_cases hage : acc < s.age
        · simp [pickFromSSE, pickFromInt, hs, hsu, hage, ih (i0 + 1) i0 s.age htail]
        · simp [pickFromSSE, pickFromInt, hs, hsu, hage, ih (i0 + 1) reg acc htail]
      · have : s.used = false := by simpa using hsu
        simp [pickFromSSE, pickFromInt, hs, this]

theorem ageUsed_locked (l : List RegSlot) (k : Nat) :
    ((ageUsed l).getD k noSlot).locked = (l.getD k noSlot).locked := by
  rw [getD_ageUsed]; split <;> rfl

theorem ageUsed_used (l : List RegSlot) (k : Nat) :
    ((ageUsed l).getD k noSlot).used = (l.getD k noSlot).used := by
  rw [getD_ageUsed]; split <;> rfl

theorem ageUsed_age_of_used (l : List RegSlot) (k : Nat)
    (h : (l.getD k noSlot).used = true) :
    ((ageUsed l).getD k noSlot).age = (l.getD k noSlot).age + 1 := by
  rw [getD_ageUsed, if_pos h]

/-- Shape of the miss path of alloc_int_reg: the returned register is the
value of the selection loop run on the aged pool. -/
theorem alloc_int_reg_miss (s : JITState) (g : Nat) (load : Bool)
    (hg : g < 16) (hmiss : findHitFrom s.int_regs g 0 = none) :
    ∃ s2, alloc_int_reg s g load =
      Except.ok (pickFromInt (ageUsed s.int_regs) 0 0 0, s2) := by
  rw [alloc_int_reg, if_neg (Nat.not_le.mpr hg), hmiss]
  exact ⟨_, rfl⟩

/-- Shape of the miss path of alloc_sse_reg. -/
theorem alloc_sse_reg_miss (s : JITState) (g : Nat) (load : Bool)
    (hg : g < 32) (hmiss : findHitFrom s.xmm_regs g 0 = none) :
    ∃ s2, alloc_sse_reg s g load =
      Except.ok (pickFromSSE (ageUsed s.xmm_regs) 0 0 0, s2) := by
  rw [alloc_sse_reg, if_neg (Nat.not_le.mpr hg), hmiss]
  exact ⟨_, rfl⟩

/- ------------------------------------------------------------------ -/
/- Claim C3: the eviction policy on a miss.                            -/
/- ------------------------------------------------------------------ -/

/-- Claim C3: on a miss, the selected slot is the lowest-index unlocked
unused slot when one exists, and otherwise the unlocked used slot of
strictly greatest age, ties resolving to the lowest index; in the vector
pool this holds for every pool without locked slots (nothing ever locks a
vector slot, so that covers every reachable state). Ages are compared in
the pre-call state; the aging pass adds one to every used slot alike, so
the comparisons are unchanged. -/
theorem claim_C3 :
    (∀ (s : JITState) (g : Nat) (load : Bool),
      s.int_regs.length = 16 → g < 16 →
      findHitFrom s.int_regs g 0 = none →
      (∃ k, k < 16 ∧ (s.int_regs.getD k noSlot).locked = false) →
      ∃ r s2, alloc_int_reg s g load = Except.ok (r, s2) ∧ r < 16 ∧
        (s.int_regs.getD r noSlot).locked = false ∧
        ((∃ k, k < 16 ∧ (s.int_regs.getD k noSlot).locked = false ∧
            (s.int_regs.getD k noSlot).used = false) →
          (s.int_regs.getD r noSlot).used = false ∧
            ∀ j, j < r → (s.int_regs.getD j noSlot).locked = false →
              (s.int_regs.getD j noSlot).used = true) ∧
        ((∀ k, k < 16 → (s.int_regs.getD k noSlot).locked = false →
            (s.int_regs.getD k noSlot).used = true) →
          (s.int_regs.getD r noSlot).used = true ∧
            (∀ j, j < 16 → (s.int_regs.getD j noSlot).locked = false →
              (s.int_regs.getD j noSlot).age ≤ (s.int_regs.getD r noSlot).age) ∧
            (∀ j, j < r → (s.int_regs.getD j noSlot).locked = false →
              (s.int_regs.getD j noSlot).age < (s.int_regs.getD r noSlot).age))) ∧
    (∀ (s : JITState) (g : Nat) (load : Bool),
      s.xmm_regs.length = 16 → g < 32 →
      findHitFrom s.xmm_regs g 0 = none →
      (∀ k, k < 16 → (s.xmm_regs.getD k noSlot).locked = false) →
      ∃ r s2, alloc_sse_reg s g load = Except.ok (r, s2) ∧ r < 16 ∧
        ((∃ k, k < 16 ∧ (s.xmm_regs.getD k noSlot).used = false) →
          (s.xmm_regs.getD r noSlot).used = false ∧
            ∀ j, j < r → (s.xmm_regs.getD j noSlot).used = true) ∧
        ((∀ k, k < 16 → (s.xmm_regs.getD k noSlot).used = true) →
          (s.xmm_regs.getD r noSlot).used = true ∧
            (∀ j, j < 16 → (s.xmm_regs.getD j noSlot).age ≤
              (s.xmm_regs.getD r noSlot).age) ∧
            (∀ j, j < r → (s.xmm_regs.getD j noSlot).age <
              (s.xmm_regs.getD r noSlot).age))) := by
  constructor
  · intro s g load hlen hg hmiss hex
    obtain ⟨s2, halloc⟩ := alloc_int_reg_miss s g load hg hmiss
    have hlen2 : (ageUsed s.int_regs).length = 16 := by
      rw [length_ageUsed, hlen]
    by_cases hcase : ∃ k, k < 16 ∧ (s.int_regs.getD k noSlot).locked = false ∧
        (s.int_regs.getD k noSlot).used = false
    · obtain ⟨k0, hk0, hl0, hu0⟩ := hcase
      obtain ⟨k, hk, hpick, q1, q2, q3⟩ :=
        pickFromInt_unused (ageUsed s.int_regs) 0 0 0
          ⟨k0, by rw [hlen2]; exact hk0,
            by rw [ageUsed_locked]; exact hl0,
            by rw [ageUsed_used]; exact hu0⟩
      rw [hlen2] at hk
      rw [ageUsed_locked] at q1
      rw [ageUsed_used] at q2
      simp only [Nat.zero_add] at hpick
      rw [hpick] at halloc
      refine ⟨k, s2, halloc, hk, q1, fun _ => ⟨q2, ?_⟩, fun hall => ?_⟩
      · intro j hj hjl
        rcases q3 j hj with h | h
        · rw [ageUsed_locked] at h
          rw [h] at hjl
          exact absurd hjl (by simp)
        · rw [ageUsed_used] at h
          exact h
      · have := hall k0 hk0 hl0
        rw [this] at hu0
        exact absurd hu0 (by simp)
    · have hall : ∀ k, k < 16 → (s.int_regs.getD k noSlot).locked = false →
          (s.int_regs.getD k noSlot).used = true := by
        intro k hk hl
        by_contra hu
        exact hcase ⟨k, hk, hl, by simpa using hu⟩
      have hall2 : ∀ k, k < (ageUsed s.int_regs).length →
          ((ageUsed s.int_regs).getD k noSlot).locked = false →
          ((ageUsed s.int_regs).getD k noSlot).used = true := by
        intro k hk hl
        rw [ageUsed_used]
        rw [ageUsed_locked] at hl
        rw [hlen2] at hk
        exact hall k hk hl
      rcases pickFromInt_evict (ageUsed s.int_regs) 0 0 0 hall2 with
        ⟨-, hages⟩ | ⟨k, hk, hpick, p1, p2, p3, p4, p5⟩
      · obtain ⟨k0, hk0, hl0⟩ := hex
        have hu0 := hall k0 hk0 hl0
        have := hages k0 (by rw [hlen2]; exact hk0) (by rw [ageUsed_locked]; exact hl0)
        rw [ageUsed_age_of_used s.int_regs k0 hu0] at this
        omega
      · rw [hlen2] at hk
        rw [ageUsed_locked] at p1
        rw [ageUsed_used] at p2
        simp only [Nat.zero_add] at hpick
        rw [hpick] at halloc
        have hused_k : (s.int_regs.getD k noSlot).used = true := p2
        refine ⟨k, s2, halloc, hk, p1, fun hcontra => ?_, fun _ => ⟨p2, ?_, ?_⟩⟩
        · obtain ⟨k1, hk1, hl1, hu1⟩ := hcontra
          have := hall k1 hk1 hl1
          rw [this] at hu1
          exact absurd hu1 (by simp)
        · intro j hj hjl
          have hju := hall j hj hjl
          have := p4 j (by rw [hlen2]; exact hj) (by rw [ageUsed_locked]; exact hjl)
          rw [ageUsed_age_of_used s.int_regs j hju,
            ageUsed_age_of_used s.int_regs k hused_k] at this
          omega
        · intro j hj hjl
          have hju := hall j (Nat.lt_trans hj hk) hjl
          have := p5 j hj (by rw [ageUsed_locked]; exact hjl)
          rw [ageUsed_age_of_used s.int_regs j hju,
            ageUsed_age_of_used s.int_regs k hused_k] at this
          omega
  · intro s g load hlen hg hmiss hnl
    obtain ⟨s2, halloc⟩ := alloc_sse_reg_miss s g load hg hmiss
    have hlen2 : (ageUsed s.xmm_regs).length = 16 := by
      rw [length_ageUsed, hlen]
    have hnl2 : ∀ k, k < (ageUsed s.xmm_regs).length →
        ((ageUsed s.xmm_regs).getD k noSlot).locked = false := by
      intro k hk
      rw [ageUsed_locked]
      rw [hlen2] at hk
      exact hnl k hk
    rw [pickFromSSE_eq (ageUsed s.xmm_regs) 0 0 0 hnl2] at halloc
    by_cases hcase : ∃ k, k < 16 ∧ (s.xmm_regs.getD k noSlot).used = false
    · obtain ⟨k0, hk0, hu0⟩ := hcase
      obtain ⟨k, hk, hpick, -, q2, q3⟩ :=
        pickFromInt_unused (ageUsed s.xmm_regs) 0 0 0
          ⟨k0, by rw [hlen2]; exact hk0,
            by rw [ageUsed_locked]; exact hnl k0 hk0,
            by rw [ageUsed_used]; exact hu0⟩
      rw [hlen2] at hk
      rw [ageUsed_used] at q2
      simp only [Nat.zero_add] at hpick
      rw [hpick] at halloc
      refine ⟨k, s2, halloc, hk, fun _ => ⟨q2, ?_⟩, fun hall => ?_⟩
      · intro j hj
        rcases q3 j hj with h | h
        · rw [ageUsed_locked] at h
          have := hnl j (Nat.lt_trans hj hk)
          rw [this] at h
          exact absurd h (by simp)
        · rw [ageUsed_used] at h
          exact h
      · have := hall k0 hk0
        rw [this] at hu0
        exact absurd hu0 (by simp)
    · have hall : ∀ k, k < 16 → (s.xmm_regs.getD k noSlot).used = true := by
        intro k hk
        by_contra hu
        exact hcase ⟨k, hk, by simpa using hu⟩
      have hall2 : ∀ k, k < (ageUsed s.xmm_regs).length →
          ((ageUsed s.xmm_regs).getD k noSlot).locked = false →
          ((ageUsed s.xmm_regs).getD k noSlot).used = true := by
        intro k hk _
        rw [ageUsed_used]
        rw [hlen2] at hk
        exact hall k hk
      rcases pickFromInt_evict (ageUsed s.xmm_regs) 0 0 0 hall2 with
        ⟨-, hages⟩ | ⟨k, hk, hpick, -, p2, p3, p4, p5⟩
      · have hu0 := hall 0 (by omega)
        have := hages 0 (by rw [hlen2]; omega) (by rw [ageUsed_locked]; exact hnl 0 (by omega))
        rw [ageUsed_age_of_used s.xmm_regs 0 hu0] at this
        omega
      · rw [hlen2] at hk
        rw [ageUsed_used] at p2
        simp only [Nat.zero_add] at hpick
        rw [hpick] at halloc
        refine ⟨k, s2, halloc, hk, fun hcontra => ?_, fun _ => ⟨p2, ?_, ?_⟩⟩
        · obtain ⟨k1, hk1, hu1⟩ := hcontra
          have := hall k1 hk1
          rw [this] at hu1
          exact absurd hu1 (by simp)
        · intro j hj
          have hju := hall j hj
          have := p4 j (by rw [hlen2]; exact hj) (by rw [ageUsed_locked]; exact hnl j hj)
          rw [ageUsed_age_of_used s.xmm_regs j hju,
            ageUsed_age_of_used s.xmm_regs k p2] at this
          omega
        · intro j hj
          have hju := hall j (Nat.lt_trans hj hk)
          have := p5 j hj (by rw [ageUsed_locked]; exact hnl j (Nat.lt_trans hj hk))
          rw [ageUsed_age_of_used s.xmm_regs j hju,
            ageUsed_age_of_used s.xmm_regs k p2] at this
          omega

/-- Claim C3, witness: a miss in each pool at concrete states. -/
theorem claim_C3_witness :
    (∃ r s2, alloc_int_reg c2state 7 false = Except.ok (r, s2) ∧ r < 16 ∧
      (c2state.int_regs.getD r noSlot).locked = false ∧
      ((∃ k, k < 16 ∧ (c2state.int_regs.getD k noSlot).locked = false ∧
          (c2state.int_regs.getD k noSlot).used = false) →
        (c2state.int_regs.getD r noSlot).used = false ∧
          ∀ j, j < r → (c2state.int_regs.getD j noSlot).locked = false →
            (c2state.int_regs.getD j noSlot).used = true) ∧
      ((∀ k, k < 16 → (c2state.int_regs.getD k noSlot).locked = false →
          (c2state.int_regs.getD k noSlot).used = true) →
        (c2state.int_regs.getD r noSlot).used = true ∧
          (∀ j, j < 16 → (c2state.int_regs.getD j noSlot).locked = false →
            (c2state.int_regs.getD j noSlot).age ≤
              (c2state.int_regs.getD r noSlot).age) ∧
          (∀ j, j < r → (c2state.int_regs.getD j noSlot).locked = false →
            (c2state.int_regs.getD j noSlot).age <
              (c2state.int_regs.getD r noSlot).age))) ∧
    (∃ r s2, alloc_sse_reg resetState 5 false = Except.ok (r, s2) ∧ r < 16 ∧
      ((∃ k, k < 16 ∧ (resetState.xmm_regs.getD k noSlot).used = false) →
        (resetState.xmm_regs.getD r noSlot).used = false ∧
          ∀ j, j < r → (resetState.xmm_regs.getD j noSlot).used = true) ∧
      ((∀ k, k < 16 → (resetState.xmm_regs.getD k noSlot).used = true) →
        (resetState.xmm_regs.getD r noSlot).used = true ∧
          (∀ j, j < 16 → (resetState.xmm_regs.getD j noSlot).age ≤
            (resetState.xmm_regs.getD r noSlot).age) ∧
          (∀ j, j < r → (resetState.xmm_regs.getD j noSlot).age <
            (resetState.xmm_regs.getD r noSlot).age))) := by
  constructor
  · exact claim_C3.1 c2state 7 false (by decide) (by decide) (by decide)
      ⟨1, by decide, by decide⟩
  · exact claim_C3.2 resetState 5 false (by decide) (by decide) (by decide)
      (by decide)

/-- The slot chosen on a miss in the general-purpose pool is in range and
unlocked, whenever the pool holds any unlocked slot at all. -/
theorem pick_on_aged (l : List RegSlot) (hlen : l.length = 16)
    (hex : ∃ k, k < 16 ∧ (l.getD k noSlot).locked = false) :
    pickFromInt (ageUsed l) 0 0 0 < 16 ∧
    (l.getD (pickFromInt (ageUsed l) 0 0 0) noSlot).locked = false := by
  have hlen2 : (ageUsed l).length = 16 := by rw [length_ageUsed, hlen]
  by_cases hcase : ∃ k, k < 16 ∧ (l.getD k noSlot).locked = false ∧
      (l.getD k noSlot).used = false
  · obtain ⟨k0, hk0, hl0, hu0⟩ := hcase
    obtain ⟨k, hk, hpick, q1, -, -⟩ :=
      pickFromInt_unused (ageUsed l) 0 0 0
        ⟨k0, by rw [hlen2]; exact hk0,
          by rw [ageUsed_locked]; exact hl0,
          by rw [ageUsed_used]; exact hu0⟩
    rw [hlen2] at hk
    rw [ageUsed_locked] at q1
    simp only [Nat.zero_add] at hpick
    rw [hpick]
    exact ⟨hk, q1⟩
  · have hall : ∀ k, k < 16 → (l.getD k noSlot).locked = false →
        (l.getD k noSlot).used = true := by
      intro k hk hl
      by_contra hu
      exact hcase ⟨k, hk, hl, by simpa using hu⟩
    have hall2 : ∀ k, k < (ageUsed l).length →
        ((ageUsed l).getD k noSlot).locked = false →
        ((ageUsed l).getD k noSlot).used = true := by
      intro k hk hl
      rw [ageUsed_used]
      rw [ageUsed_locked] at hl
      rw [hlen2] at hk
      exact hall k hk hl
    rcases pickFromInt_evict (ageUsed l) 0 0 0 hall2 with
      ⟨-, hages⟩ | ⟨k, hk, hpick, p1, -, -, -, -⟩
    · obtain ⟨k0, hk0, hl0⟩ := hex
      have hu0 := hall k0 hk0 hl0
      have := hages k0 (by rw [hlen2]; exact hk0) (by rw [ageUsed_locked]; exact hl0)
      rw [ageUsed_age_of_used l k0 hu0] at this
      omega
    · rw [hlen2] at hk
      rw [ageUsed_locked] at p1
      simp only [Nat.zero_add] at hpick
      rw [hpick]
      exact ⟨hk, p1⟩

/-- The slot chosen on a miss in the vector pool is in range, for any pool
without locked slots. -/
theorem pick_sse_on_aged (l : List RegSlot) (hlen : l.length = 16)
    (hnl : ∀ k, k < 16 → (l.getD k noSlot).locked = false) :
    pickFromSSE (ageUsed l) 0 0 0 < 16 := by
  have hlen2 : (ageUsed l).length = 16 := by rw [length_ageUsed, hlen]
  have hnl2 : ∀ k, k < (ageUsed l).length →
      ((ageUsed l).getD k noSlot).locked = false := by
    intro k hk
    rw [ageUsed_locked]
    rw [hlen2] at hk
    exact hnl k hk
  rw [pickFromSSE_eq (ageUsed l) 0 0 0 hnl2]
  have := pick_on_aged l hlen ⟨0, by omega, hnl 0 (by omega)⟩
  exact this.1

/-- Case analysis on a successful alloc_int_reg call: either a hit that
leaves the state unchanged, or a miss that rebinds exactly the selected
slot of the aged pool. -/
theorem alloc_int_reg_cases (s : JITState) (g : Nat) (load : Bool) (r : Nat)
    (s2 : JITState) (h : alloc_int_reg s g load = Except.ok (r, s2)) :
    (findHitFrom s.int_regs g 0 = some r ∧ s2 = s) ∨
    (findHitFrom s.int_regs g 0 = none ∧
      r = pickFromInt (ageUsed s.int_regs) 0 0 0 ∧
      s2.int_regs = (ageUsed s.int_regs).set r
        { (ageUsed s.int_regs).getD r noSlot with
            vu_reg := g, used := true, age := 0 } ∧
      s2.xmm_regs = s.xmm_regs) := by
  unfold alloc_int_reg at h
  by_cases hg : 16 ≤ g
  · rw [if_pos hg] at h
    exact absurd h (by simp)
  · rw [if_neg hg] at h
    cases hf : findHitFrom s.int_regs g 0 with
    | some i =>
        rw [hf] at h
        simp only [Except.ok.injEq, Prod.mk.injEq] at h
        obtain ⟨h1, h2⟩ := h
        subst h1
        exact Or.inl ⟨rfl, h2.symm⟩
    | none =>
        rw [hf] at h
        refine Or.inr ⟨rfl, ?_⟩
        by_cases hu : ((ageUsed s.int_regs).getD
            (pickFromInt (ageUsed s.int_regs) 0 0 0) noSlot).used = true
        · by_cases hl : load = true
          · simp only [hu, hl, if_true, Except.ok.injEq, Prod.mk.injEq] at h
            obtain ⟨h1, h2⟩ := h
            subst h2
            subst h1
            exact ⟨rfl, rfl, rfl⟩
          · simp only [hu, hl, if_true, if_false, Except.ok.injEq, Prod.mk.injEq] at h
            obtain ⟨h1, h2⟩ := h
            subst h2
            subst h1
            exact ⟨rfl, rfl, rfl⟩
        · by_cases hl : load = true
          · simp only [hu, hl, if_true, if_false, Except.ok.injEq, Prod.mk.injEq] at h
            obtain ⟨h1, h2⟩ := h
            subst h2
            subst h1
            exact ⟨rfl, rfl, rfl⟩
          · simp only [hu, hl, if_false, Except.ok.injEq, Prod.mk.injEq] at h
            obtain ⟨h1, h2⟩ := h
            subst h2
            subst h1
            exact ⟨rfl, rfl, rfl⟩

/-- Case analysis on a successful alloc_sse_reg call. -/
theorem alloc_sse_reg_cases (s : JITState) (g : Nat) (load : Bool) (r : Nat)
    (s2 : JITState) (h : alloc_sse_reg s g load = Except.ok (r, s2)) :
    (findHitFrom s.xmm_regs g 0 = some r ∧ s2 = s) ∨
    (findHitFrom s.xmm_regs g 0 = none ∧
      r = pickFromSSE (ageUsed s.xmm_regs) 0 0 0 ∧
      s2.xmm_regs = (ageUsed s.xmm_regs).set r
        { (ageUsed s.xmm_regs).getD r noSlot with
            vu_reg := g, used := true, age := 0 } ∧
      s2.int_regs = s.int_regs) := by
  unfold alloc_sse_reg at h
  by_cases hg : 32 ≤ g
  · rw [if_pos hg] at h
    exact absurd h (by simp)
  · rw [if_neg hg] at h
    cases hf : findHitFrom s.xmm_regs g 0 with
    | some i =>
        rw [hf] at h
        simp only [Except.ok.injEq, Prod.mk.injEq] at h
        obtain ⟨h1, h2⟩ := h
        subst h1
        exact Or.inl ⟨rfl, h2.symm⟩
    | none =>
        rw [hf] at h
        refine Or.inr ⟨rfl, ?_⟩
        by_cases hu : ((ageUsed s.xmm_regs).getD
            (pickFromSSE (ageUsed s.xmm_regs) 0 0 0) noSlot).used = true
        · by_cases hl : load = true
          · simp only [hu, hl, if_true, Except.ok.injEq, Prod.mk.injEq] at h
            obtain ⟨h1, h2⟩ := h
            subst h2
            subst h1
            exact ⟨rfl, rfl, rfl⟩
          · simp only [hu, hl, if_true, if_false, Except.ok.injEq, Prod.mk.injEq] at h
            obtain ⟨h1, h2⟩ := h
            subst h2
            subst h1
            exact ⟨rfl, rfl, rfl⟩
        · by_cases hl : load = true
          · simp only [hu, hl, if_true, if_false, Except.ok.injEq, Prod.mk.injEq] at h
            obtain ⟨h1, h2⟩ := h
            subst h2
            subst h1
            exact ⟨rfl, rfl, rfl⟩
          · simp only [hu, hl, if_false, Except.ok.injEq, Prod.mk.injEq] at h
            obtain ⟨h1, h2⟩ := h
            subst h2
            subst h1
            exact ⟨rfl, rfl, rfl⟩

/-- A successful alloc_int_reg call from a state with the reset lock
discipline never returns, rebinds or spills the locked RAX / RSP slots, and
the discipline is preserved. -/
theorem alloc_int_reg_locked (s : JITState) (g : Nat) (load : Bool) (r : Nat)
    (s2 : JITState) (hOK : lockedOK s)
    (h : alloc_int_reg s g load = Except.ok (r, s2)) :
    r < 16 ∧ r ≠ RAX ∧ r ≠ RSP ∧ lockedOK s2 ∧
    s2.int_regs.getD RAX noSlot = s.int_regs.getD RAX noSlot ∧
    s2.int_regs.getD RSP noSlot = s.int_regs.getD RSP noSlot ∧
    s2.xmm_regs = s.xmm_regs := by
  obtain ⟨hleni, hlenx, hlk, hu0, hu4, hxl⟩ := hOK
  rcases alloc_int_reg_cases s g load r s2 h with ⟨hf, rfl⟩ | ⟨hf, hr, hir, hxr⟩
  · obtain ⟨-, hlt, hus, -⟩ := findHitFrom_sound _ g 0 r hf
    simp only [Nat.sub_zero] at hlt hus
    rw [hleni] at hlt
    have hne0 : r ≠ RAX := fun he => by rw [he, hu0] at hus; exact absurd hus (by simp)
    have hne4 : r ≠ RSP := fun he => by rw [he, hu4] at hus; exact absurd hus (by simp)
    exact ⟨hlt, hne0, hne4, ⟨hleni, hlenx, hlk, hu0, hu4, hxl⟩, rfl, rfl, rfl⟩
  · have hex : ∃ k, k < 16 ∧ (s.int_regs.getD k noSlot).locked = false := by
      refine ⟨1, by omega, ?_⟩
      have := hlk 1 (by omega)
      by_contra hc
      have h1 : (s.int_regs.getD 1 noSlot).locked = true := by simpa using hc
      have := this.mp h1
      simp [RAX, RSP] at this
    obtain ⟨hrlt, hrunl⟩ := pick_on_aged s.int_regs hleni hex
    rw [← hr] at hrlt hrunl
    have hne0 : r ≠ RAX := by
      intro he
      have := (hlk RAX (by simp [RAX])).mpr (Or.inl rfl)
      rw [← he] at this
      rw [this] at hrunl
      exact absurd hrunl (by simp)
    have hne4 : r ≠ RSP := by
      intro he
      have := (hlk RSP (by simp [RSP])).mpr (Or.inr rfl)
      rw [← he] at this
      rw [this] at hrunl
      exact absurd hrunl (by simp)
    have hgetD_other : ∀ j, j ≠ r → s2.int_regs.getD j noSlot =
        (ageUsed s.int_regs).getD j noSlot := by
      intro j hj
      rw [hir]
      exact getD_set_ne _ r j _ _ (fun he => hj he.symm)
    have hlen2 : s2.int_regs.length = 16 := by
      rw [hir]
      simp [length_ageUsed, hleni]
    have hlocked2 : ∀ i, i < 16 →
        (s2.int_regs.getD i noSlot).locked = (s.int_regs.getD i noSlot).locked := by
      intro i hi
      by_cases hieq : i = r
      · rw [hieq, hir, getD_set_self _ r _ _ (by rw [length_ageUsed, hleni]; exact hrlt)]
        exact ageUsed_locked s.int_regs r
      · rw [hgetD_other i hieq]
        exact ageUsed_locked s.int_regs i
    have hslot0 : s2.int_regs.getD RAX noSlot = s.int_regs.getD RAX noSlot := by
      rw [hgetD_other RAX (fun he => hne0 he.symm), getD_ageUsed, if_neg (by rw [hu0]; decide)]
    have hslot4 : s2.int_regs.getD RSP noSlot = s.int_regs.getD RSP noSlot := by
      rw [hgetD_other RSP (fun he => hne4 he.symm), getD_ageUsed, if_neg (by rw [hu4]; decide)]
    refine ⟨hrlt, hne0, hne4, ⟨hlen2, by rw [hxr]; exact hlenx, ?_, ?_, ?_, ?_⟩,
      hslot0, hslot4, hxr⟩
    · intro i hi
      rw [hlocked2 i hi]
      exact hlk i hi
    · rw [hslot0]; exact hu0
    · rw [hslot4]; exact hu4
    · intro i hi
      rw [hxr]
      exact hxl i hi

/-- A successful alloc_sse_reg call from a state with the reset lock
discipline returns an in-range vector slot (no vector slot is ever
locked), leaves the general-purpose pool alone, and preserves the
discipline. -/
theorem alloc_sse_reg_locked (s : JITState) (g : Nat) (load : Bool) (r : Nat)
    (s2 : JITState) (hOK : lockedOK s)
    (h : alloc_sse_reg s g load = Except.ok (r, s2)) :
    r < 16 ∧ lockedOK s2 ∧ s2.int_regs = s.int_regs := by
  obtain ⟨hleni, hlenx, hlk, hu0, hu4, hxl⟩ := hOK
  rcases alloc_sse_reg_cases s g load r s2 h with ⟨hf, rfl⟩ | ⟨hf, hr, hxr, hir⟩
  · obtain ⟨-, hlt, -, -⟩ := findHitFrom_sound _ g 0 r hf
    simp only [Nat.sub_zero] at hlt
    rw [hlenx] at hlt
    exact ⟨hlt, ⟨hleni, hlenx, hlk, hu0, hu4, hxl⟩, rfl⟩
  · have hrlt : r < 16 := by
      rw [hr]
      exact pick_sse_on_aged s.xmm_regs hlenx hxl
    have hlen2 : s2.xmm_regs.length = 16 := by
      rw [hxr]
      simp [length_ageUsed, hlenx]
    refine ⟨hrlt, ⟨by rw [hir]; exact hleni, hlen2, ?_, ?_, ?_, ?_⟩, hir⟩
    · intro i hi
      rw [hir]
      exact hlk i hi
    · rw [hir]; exact hu0
    · rw [hir]; exact hu4
    · intro i hi
      by_cases hieq : i = r
      · rw [hieq, hxr, getD_set_self _ r _ _ (by rw [length_ageUsed, hlenx]; exact hrlt)]
        show ((ageUsed s.xmm_regs).getD r noSlot).locked = false
        rw [ageUsed_locked]
        exact hxl r hrlt
      · rw [hxr, getD_set_ne _ r i _ _ (fun he => hieq he.symm), ageUsed_locked]
        exact hxl i hi

/-- Any sequence of acquire calls from a state with the reset lock
discipline: every granted general-purpose slot avoids the locked RAX and
RSP slots (which are never mutated), every granted vector slot is in
range, and the discipline persists. -/
theorem runReqs_locked (reqs : List AllocReq) :
    ∀ (s : JITState), lockedOK s →
      lockedOK (runReqs s reqs).2 ∧
      (runReqs s reqs).2.int_regs.getD RAX noSlot = s.int_regs.getD RAX noSlot ∧
      (runReqs s reqs).2.int_regs.getD RSP noSlot = s.int_regs.getD RSP noSlot ∧
      ∀ p, p ∈ (runReqs s reqs).1 → p.2 < 16 ∧
        ∀ id load, p.1 = AllocReq.i id load → (p.2 ≠ RAX ∧ p.2 ≠ RSP) := by
  induction reqs with
  | nil =>
      intro s hOK
      exact ⟨hOK, rfl, rfl, fun p hp => absurd hp (by simp [runReqs])⟩
  | cons req rest ih =>
      intro s hOK
      cases hr : runReq s req with
      | error e =>
          have hrun : runReqs s (req :: rest) = ([], s) := by
            simp [runReqs, hr]
          rw [hrun]
          exact ⟨hOK, rfl, rfl, fun p hp => absurd hp (by simp)⟩
      | ok pr =>
          obtain ⟨n, s2⟩ := pr
          have hrun : runReqs s (req :: rest) =
              ((req, n) :: (runReqs s2 rest).1, (runReqs s2 rest).2) := by
            simp [runReqs, hr]
          have hstep : lockedOK s2 ∧
              s2.int_regs.getD RAX noSlot = s.int_regs.getD RAX noSlot ∧
              s2.int_regs.getD RSP noSlot = s.int_regs.getD RSP noSlot ∧
              n < 16 ∧
              (∀ id load, req = AllocReq.i id load → (n ≠ RAX ∧ n ≠ RSP)) := by
            cases req with
            | i id load =>
                have := alloc_int_reg_locked s id load n s2 hOK (by simpa [runReq] using hr)
                exact ⟨this.2.2.2.1, this.2.2.2.2.1, this.2.2.2.2.2.1, this.1,
                  fun _ _ _ => ⟨this.2.1, this.2.2.1⟩⟩
            | x id load =>
                have := alloc_sse_reg_locked s id load n s2 hOK (by simpa [runReq] using hr)
                refine ⟨this.2.1, by rw [this.2.2], by rw [this.2.2], this.1,
                  fun id2 load2 he => absurd he (by simp)⟩
          obtain ⟨hOK2, h0, h4, hn, hreq⟩ := hstep
          obtain ⟨ihOK, ih0, ih4, ihmem⟩ := ih s2 hOK2
          rw [hrun]
          refine ⟨ihOK, by rw [ih0, h0], by rw [ih4, h4], ?_⟩
          intro p hp
          simp only [List.mem_cons] at hp
          rcases hp with rfl | hp
          · exact ⟨hn, fun id load he => hreq id load he⟩
          · exact ihmem p hp

/-- Claim C4: for every sequence of acquire calls from the reset state
(where exactly the RAX and RSP general-purpose slots are locked), no
locked slot is ever returned as an allocation target; since an acquire
binds, spills and fills only the slot it returns, the locked slots are
never bound, spilled or filled, and indeed they stay bytewise unchanged
through the whole sequence. -/
theorem claim_C4 (reqs : List AllocReq) :
    lockedOK (runReqs resetState reqs).2 ∧
    (runReqs resetState reqs).2.int_regs.getD RAX noSlot =
      resetState.int_regs.getD RAX noSlot ∧
    (runReqs resetState reqs).2.int_regs.getD RSP noSlot =
      resetState.int_regs.getD RSP noSlot ∧
    ∀ p, p ∈ (runReqs resetState reqs).1 → p.2 < 16 ∧
      ∀ id load, p.1 = AllocReq.i id load → (p.2 ≠ RAX ∧ p.2 ≠ RSP) :=
  runReqs_locked reqs resetState (by
    refine ⟨by decide, by decide, ?_, by decide, by decide, by decide⟩
    decide)

/-- Claim C4, witness: a concrete three-request sequence. -/
theorem claim_C4_witness :
    (runReqs resetState [AllocReq.i 3 false, AllocReq.i 7 true, AllocReq.x 2 false]).1 =
      [(AllocReq.i 3 false, 1), (AllocReq.i 7 true, 2), (AllocReq.x 2 false, 0)] ∧
    ((1 : Nat) ≠ RAX ∧ (1 : Nat) ≠ RSP) ∧
    lockedOK (runReqs resetState
      [AllocReq.i 3 false, AllocReq.i 7 true, AllocReq.x 2 false]).2 := by
  refine ⟨by decide, ?_,
    (claim_C4 [AllocReq.i 3 false, AllocReq.i 7 true, AllocReq.x 2 false]).1⟩
  exact (((claim_C4 [AllocReq.i 3 false, AllocReq.i 7 true, AllocReq.x 2 false]).2.2.2
    (AllocReq.i 3 false, 1) (by decide)).2 3 false rfl)

/- ------------------------------------------------------------------ -/
/- Claim C10: guest-id range checks at the acquire interface.          -/
/- ------------------------------------------------------------------ -/

/-- Claim C10: acquire on the integer pool fails exactly for guest ids
that are at least 16, and acquire on the vector pool fails exactly for
guest ids that are at least 32; every accepted id yields a slot. -/
theorem claim_C10 (s : JITState) (id : Nat) (load : Bool) :
    (16 ≤ id → isOk (alloc_int_reg s id load) = false) ∧
    (id < 16 → isOk (alloc_int_reg s id load) = true) ∧
    (32 ≤ id → isOk (alloc_sse_reg s id load) = false) ∧
    (id < 32 → isOk (alloc_sse_reg s id load) = true) := by
  refine ⟨?_, ?_, ?_, ?_⟩
  · intro h
    simp [alloc_int_reg, if_pos h, isOk]
  · intro h
    rw [alloc_int_reg, if_neg (Nat.not_le.mpr h)]
    cases hf : findHitFrom s.int_regs id 0 <;> simp [isOk]
  · intro h
    simp [alloc_sse_reg, if_pos h, isOk]
  · intro h
    rw [alloc_sse_reg, if_neg (Nat.not_le.mpr h)]
    cases hf : findHitFrom s.xmm_regs id 0 <;> simp [isOk]

/-- Claim C10, witness at concrete inputs. -/
theorem claim_C10_witness :
    isOk (alloc_int_reg resetState 16 false) = false ∧
    isOk (alloc_int_reg resetState 15 false) = true ∧
    isOk (alloc_sse_reg resetState 31 false) = true ∧
    isOk (alloc_sse_reg resetState 32 false) = false := by
  refine ⟨(claim_C10 resetState 16 false).1 (by decide),
          ((claim_C10 resetState 15 false).2.1) (by decide),
          ((claim_C10 resetState 31 false).2.2.2) (by decide),
          ((claim_C10 resetState 32 false).2.2.1) (by decide)⟩

/- ------------------------------------------------------------------ -/
/- Claim C1: the VMulVectorByScalar dispatcher case.                   -/
/- ------------------------------------------------------------------ -/

/-- Claim C1, counterexample: dispatching a MultiplyVectorByScalar
instruction succeeds and changes nothing (the handler call is commented
out in the source), and compiling a block that contains it also succeeds;
no unsupported marker distinct from success is surfaced. -/
theorem counterexample_C1 :
    dispatch_instr resetState c1instr = Except.ok resetState ∧
    isOk (recompile_block resetState 0 c1block) = true := by
  constructor
  · rfl
  · decide

/-- Claim C1 as amended: the dispatcher treats MultiplyVectorByScalar as a
silent no-op presented as success: for every state, dispatching it
returns success with the state (and the emitted code) entirely
unchanged. -/
theorem claim_C1 (s : JITState) (instr : IRInstruction)
    (h : instr.op = IROpcode.VMulVectorByScalar) :
    dispatch_instr s instr = Except.ok s := by
  simp [dispatch_instr, h]

/-- Claim C1, witness. -/
theorem claim_C1_witness :
    dispatch_instr resetState c1instr = Except.ok resetState :=
  claim_C1 resetState c1instr rfl

/- ------------------------------------------------------------------ -/
/- Claim C5: the ABI argument counter.                                 -/
/- ------------------------------------------------------------------ -/

theorem prepare_abi_count (s : JITState) (v : Nat) (s2 : JITState)
    (h : prepare_abi s v = Except.ok s2) :
    s.abi_int_count < 6 ∧ s2.abi_int_count = s.abi_int_count + 1 := by
  unfold prepare_abi at h
  by_cases hc : 6 ≤ s.abi_int_count
  · rw [if_pos hc] at h
    exact absurd h (by simp)
  · rw [if_neg hc] at h
    refine ⟨Nat.not_le.mp hc, ?_⟩
    by_cases hs :
        (s.int_regs.getD (abiArgRegs.getD s.abi_int_count 0) noSlot).used = true
    · simp only [hs, if_true] at h
      cases h; rfl
    · simp only [hs, if_false] at h
      cases h; rfl

theorem prepareSeq_count (vs : List Nat) :
    ∀ (s : JITState), s.abi_int_count + vs.length ≤ 6 →
      ∃ s2, prepareSeq s vs = Except.ok s2 ∧
        s2.abi_int_count = s.abi_int_count + vs.length := by
  induction vs with
  | nil => intro s _; exact ⟨s, rfl, rfl⟩
  | cons v rest ih =>
      intro s h
      have hlt : s.abi_int_count < 6 := by
        simp only [List.length_cons] at h; omega
      have hok : ∃ s1, prepare_abi s v = Except.ok s1 ∧
          s1.abi_int_count = s.abi_int_count + 1 := by
        unfold prepare_abi
        rw [if_neg (Nat.not_le.mpr hlt)]
        by_cases hs :
            (s.int_regs.getD (abiArgRegs.getD s.abi_int_count 0) noSlot).used = true
        · simp only [hs, if_true]
          exact ⟨_, rfl, rfl⟩
        · simp only [hs, if_false]
          exact ⟨_, rfl, rfl⟩
      obtain ⟨s1, h1, hcnt⟩ := hok
      obtain ⟨s2, h2, hcnt2⟩ := ih s1 (by
        simp only [List.length_cons] at h; omega)
      refine ⟨s2, ?_, ?_⟩
      · unfold prepareSeq
        rw [h1]
        exact h2
      · simp only [List.length_cons]; omega

/-- Claim C5: a seventh integer-argument request in one call-preparation
sequence is a fatal error distinct from success; every successful request
starts below 6 and advances the counter by one, so the counter never
exceeds 6; and issueCall (call_abi_func) resets the counter to zero. -/
theorem claim_C5 :
    (∀ (s : JITState) (v : Nat), 6 ≤ s.abi_int_count →
      isOk (prepare_abi s v) = false) ∧
    (∀ (s : JITState) (v : Nat) (s2 : JITState), prepare_abi s v = Except.ok s2 →
      s.abi_int_count < 6 ∧ s2.abi_int_count = s.abi_int_count + 1 ∧
        s2.abi_int_count ≤ 6) ∧
    (∀ (s : JITState) (a : Nat), (call_abi_func s a).abi_int_count = 0) ∧
    (∀ (s : JITState) (vs : List Nat), s.abi_int_count = 0 → vs.length = 6 →
      ∃ s6, prepareSeq s vs = Except.ok s6 ∧ s6.abi_int_count = 6 ∧
        ∀ v, isOk (prepare_abi s6 v) = false) := by
  refine ⟨?_, ?_, ?_, ?_⟩
  · intro s v h
    simp [prepare_abi, if_pos h, isOk]
  · intro s v s2 h
    obtain ⟨h1, h2⟩ := prepare_abi_count s v s2 h
    exact ⟨h1, h2, by omega⟩
  · intro s a
    rfl
  · intro s vs h0 hlen
    obtain ⟨s6, hseq, hcnt⟩ := prepareSeq_count vs s (by omega)
    refine ⟨s6, hseq, by omega, fun v => ?_⟩
    have h6 : 6 ≤ s6.abi_int_count := by omega
    simp [prepare_abi, if_pos h6, isOk]

/-- Claim C5, witness: from a fresh state, six prepares succeed and the
seventh request is fatal. -/
theorem claim_C5_witness :
    isOk (prepare_abi resetState 0) = true ∧
    (∃ s6, prepareSeq resetState [1, 2, 3, 4, 5, 6] = Except.ok s6 ∧
      s6.abi_int_count = 6 ∧ ∀ v, isOk (prepare_abi s6 v) = false) ∧
    (call_abi_func resetState 0).abi_int_count = 0 := by
  refine ⟨by decide, ?_, (claim_C5.2.2.1 resetState 0)⟩
  exact claim_C5.2.2.2 resetState [1, 2, 3, 4, 5, 6] (by decide) (by decide)

/- ------------------------------------------------------------------ -/
/- Claim C6: cache hits return the bound slot with no state change.    -/
/- ------------------------------------------------------------------ -/

/-- Claim C6: when some slot of a pool is already bound to the requested
guest id, acquire returns that slot and the entire allocator state is
unchanged (hence no other slot age, binding or flag moves, and
re-acquiring is idempotent), in both pools. -/
theorem claim_C6 :
    (∀ (s : JITState) (g : Nat) (load : Bool), g < 16 →
      (∃ j, j < s.int_regs.length ∧ (s.int_regs.getD j noSlot).used = true ∧
        (s.int_regs.getD j noSlot).vu_reg = g) →
      ∃ i, alloc_int_reg s g load = Except.ok (i, s) ∧
        (s.int_regs.getD i noSlot).used = true ∧
        (s.int_regs.getD i noSlot).vu_reg = g) ∧
    (∀ (s : JITState) (g : Nat) (load : Bool), g < 32 →
      (∃ j, j < s.xmm_regs.length ∧ (s.xmm_regs.getD j noSlot).used = true ∧
        (s.xmm_regs.getD j noSlot).vu_reg = g) →
      ∃ i, alloc_sse_reg s g load = Except.ok (i, s) ∧
        (s.xmm_regs.getD i noSlot).used = true ∧
        (s.xmm_regs.getD i noSlot).vu_reg = g) := by
  constructor
  · intro s g load hg ⟨j, hj, hu, hv⟩
    obtain ⟨i, hfind⟩ := findHitFrom_total s.int_regs g 0 j hj hu hv
    obtain ⟨-, -, hu2, hv2⟩ := findHitFrom_sound s.int_regs g 0 i hfind
    refine ⟨i, ?_, by simpa using hu2, by simpa using hv2⟩
    rw [alloc_int_reg, if_neg (Nat.not_le.mpr hg), hfind]
  · intro s g load hg ⟨j, hj, hu, hv⟩
    obtain ⟨i, hfind⟩ := findHitFrom_total s.xmm_regs g 0 j hj hu hv
    obtain ⟨-, -, hu2, hv2⟩ := findHitFrom_sound s.xmm_regs g 0 i hfind
    refine ⟨i, ?_, by simpa using hu2, by simpa using hv2⟩
    rw [alloc_sse_reg, if_neg (Nat.not_le.mpr hg), hfind]

/-- Claim C6, witness: re-acquiring the id bound by a first acquire
returns the same slot and the identical state. -/
theorem claim_C6_witness :
    (∃ i, alloc_int_reg c2state 0 true = Except.ok (i, c2state) ∧
      (c2state.int_regs.getD i noSlot).used = true ∧
      (c2state.int_regs.getD i noSlot).vu_reg = 0) := by
  exact claim_C6.1 c2state 0 true (by decide) ⟨1, by decide, by decide, by decide⟩

/- ------------------------------------------------------------------ -/
/- Claim C2, counterexample part.                                      -/
/- ------------------------------------------------------------------ -/

/-- Claim C2, counterexample: c2state is reached from reset by a single
acquire of guest integer id 0; after flush the slot bound to guest id 0
is still used, so it is false that every slot is unused after flush. -/
theorem counterexample_C2 :
    alloc_int_reg resetState 0 false = Except.ok (1, c2state) ∧
    (c2state.int_regs.getD 1 noSlot).used = true ∧
    (c2state.int_regs.getD 1 noSlot).vu_reg = 0 ∧
    ((flush_regs c2state).int_regs.getD 1 noSlot).used = true := by
  refine ⟨by rfl, by decide, by decide, by decide⟩

/- ------------------------------------------------------------------ -/
/- Claim C2, amended part: flush semantics.                            -/
/- ------------------------------------------------------------------ -/

/-- State and code shape of the first n iterations of flush_regs. -/
theorem flushN_spec (s : JITState) :
    ∀ n,
      (flushN s n).code = s.code ++ flushCode s n ∧
      (∀ j, n ≤ j → (flushN s n).int_regs.getD j noSlot =
        s.int_regs.getD j noSlot) ∧
      (∀ j, n ≤ j → (flushN s n).xmm_regs.getD j noSlot =
        s.xmm_regs.getD j noSlot) ∧
      (∀ j, j < n → (flushN s n).int_regs.getD j noSlot =
        (if (s.int_regs.getD j noSlot).used = true ∧
            (s.int_regs.getD j noSlot).vu_reg ≠ 0
         then { s.int_regs.getD j noSlot with used := false }
         else s.int_regs.getD j noSlot)) ∧
      (∀ j, j < n → (flushN s n).xmm_regs.getD j noSlot =
        (if (s.xmm_regs.getD j noSlot).used = true ∧
            (s.xmm_regs.getD j noSlot).vu_reg ≠ 0
         then { s.xmm_regs.getD j noSlot with used := false }
         else s.xmm_regs.getD j noSlot)) := by
  intro n
  induction n with
  | zero =>
      refine ⟨by simp [flushN, flushCode], fun j _ => rfl, fun j _ => rfl,
        ?_, ?_⟩ <;> (intro j hj; omega)
  | succ n ih =>
      obtain ⟨ihc, ihgeI, ihgeX, ihltI, ihltX⟩ := ih
      rw [flushN_succ]
      refine ⟨?_, ?_, ?_, ?_, ?_⟩
      · rw [flush_step_code, ihc, ihgeX n (Nat.le_refl n), ihgeI n (Nat.le_refl n),
          flushCode, List.append_assoc]
      · intro j hj
        rw [flush_step_int_other _ n j (by omega)]
        exact ihgeI j (by omega)
      · intro j hj
        rw [flush_step_xmm_other _ n j (by omega)]
        exact ihgeX j (by omega)
      · intro j hj
        by_cases hje : j = n
        · subst hje
          rw [flush_step_int_self, ihgeI j (Nat.le_refl j)]
        · rw [flush_step_int_other _ n j hje]
          exact ihltI j (by omega)
      · intro j hj
        by_cases hje : j = n
        · subst hje
          rw [flush_step_xmm_self, ihgeX j (Nat.le_refl j)]
        · rw [flush_step_xmm_other _ n j hje]
          exact ihltX j (by omega)

/-- Running the code emitted for one flush index: the int cell of the
bound guest id receives the low 16 bits of the host register, the vector
cell receives the host xmm payload, and only RAX among host registers is
clobbered. -/
theorem runTrace_flushChunk (M : Machine) (xs is : RegSlot) (i : Nat)
    (hiRAX : (is.used = true ∧ is.vu_reg ≠ 0) → i ≠ RAX) :
    (∀ j, j ≠ RAX → (runTrace M (flushChunk xs is i)).regs j = M.regs j) ∧
    (runTrace M (flushChunk xs is i)).xmms = M.xmms ∧
    (∀ v, (runTrace M (flushChunk xs is i)).intMem v =
      (if (is.used = true ∧ is.vu_reg ≠ 0) ∧ v = is.vu_reg
       then (M.regs i).asInt % 65536 else M.intMem v)) ∧
    (∀ v, (runTrace M (flushChunk xs is i)).vfMem v =
      (if (xs.used = true ∧ xs.vu_reg ≠ 0) ∧ v = xs.vu_reg
       then M.xmms i else M.vfMem v)) := by
  by_cases hx : xs.used = true ∧ xs.vu_reg ≠ 0
  · by_cases hi : is.used = true ∧ is.vu_reg ≠ 0
    · have hiR : ¬(i = 0) := by simpa [RAX] using hiRAX hi
      refine ⟨?_, ?_, ?_, ?_⟩ <;>
        simp [flushChunk, hx, hi, runTrace, runEmit, runInstr, setReg, store64,
          RAX, hiR, HVal.asInt] <;>
        intro j hj <;> simp [hj]
    · refine ⟨?_, ?_, ?_, ?_⟩ <;>
        simp [flushChunk, hx, hi, runTrace, runEmit, runInstr, setReg, store64,
          RAX, HVal.asInt] <;>
        intro j hj <;> simp [hj]
  · by_cases hi : is.used = true ∧ is.vu_reg ≠ 0
    · have hiR : ¬(i = 0) := by simpa [RAX] using hiRAX hi
      refine ⟨?_, ?_, ?_, ?_⟩ <;>
        simp [flushChunk, hx, hi, runTrace, runEmit, runInstr, setReg, store64,
          RAX, hiR, HVal.asInt] <;>
        intro j hj <;> simp [hj]
    · refine ⟨?_, ?_, ?_, ?_⟩ <;>
        simp [flushChunk, hx, hi, runTrace, runEmit, runInstr]

/-- Running the code flush_regs emits for the first n indices writes every
used nonzero-bound slot of those indices back to its guest cell. -/
theorem runFlush_inv (s : JITState) (m : Machine)
    (hRAX : (s.int_regs.getD RAX noSlot).used = false)
    (huniqI : ∀ j, j < 16 → ∀ k, k < 16 →
      (j ≠ k ∧ (s.int_regs.getD j noSlot).used = true ∧
        (s.int_regs.getD k noSlot).used = true ∧
        (s.int_regs.getD j noSlot).vu_reg ≠ 0) →
      (s.int_regs.getD j noSlot).vu_reg ≠ (s.int_regs.getD k noSlot).vu_reg)
    (huniqX : ∀ j, j < 16 → ∀ k, k < 16 →
      (j ≠ k ∧ (s.xmm_regs.getD j noSlot).used = true ∧
        (s.xmm_regs.getD k noSlot).used = true ∧
        (s.xmm_regs.getD j noSlot).vu_reg ≠ 0) →
      (s.xmm_regs.getD j noSlot).vu_reg ≠ (s.xmm_regs.getD k noSlot).vu_reg) :
    ∀ n, n ≤ 16 →
      (∀ j, j ≠ RAX → (runTrace m (flushCode s n)).regs j = m.regs j) ∧
      ((runTrace m (flushCode s n)).xmms = m.xmms) ∧
      (∀ j, j < n → (s.int_regs.getD j noSlot).used = true →
        (s.int_regs.getD j noSlot).vu_reg ≠ 0 →
        (runTrace m (flushCode s n)).intMem (s.int_regs.getD j noSlot).vu_reg =
          (m.regs j).asInt % 65536) ∧
      (∀ j, j < n → (s.xmm_regs.getD j noSlot).used = true →
        (s.xmm_regs.getD j noSlot).vu_reg ≠ 0 →
        (runTrace m (flushCode s n)).vfMem (s.xmm_regs.getD j noSlot).vu_reg =
          m.xmms j) := by
  intro n
  induction n with
  | zero =>
      intro _
      exact ⟨fun j _ => rfl, rfl, fun j hj => by omega, fun j hj => by omega⟩
  | succ n ih =>
      intro hn16
      obtain ⟨ihr, ihx, ihi, ihv⟩ := ih (by omega)
      have hstepRAX : ((s.int_regs.getD n noSlot).used = true ∧
          (s.int_regs.getD n noSlot).vu_reg ≠ 0) → n ≠ RAX := by
        intro hc he
        rw [he] at hc
        rw [hRAX] at hc
        exact absurd hc.1 (by simp)
      have hchunk := runTrace_flushChunk (runTrace m (flushCode s n))
        (s.xmm_regs.getD n noSlot) (s.int_regs.getD n noSlot) n hstepRAX
      obtain ⟨hcr, hcx, hci, hcv⟩ := hchunk
      have hcode : flushCode s (n + 1) = flushCode s n ++
          flushChunk (s.xmm_regs.getD n noSlot) (s.int_regs.getD n noSlot) n := rfl
      rw [hcode, runTrace_append]
      refine ⟨?_, ?_, ?_, ?_⟩
      · intro j hj
        rw [hcr j hj]
        exact ihr j hj
      · rw [hcx]
        exact ihx
      · intro j hj hju hjn
        by_cases hje : j = n
        · subst hje
          rw [hci]
          rw [if_pos ⟨⟨hju, hjn⟩, rfl⟩]
          rw [ihr j (hstepRAX ⟨hju, hjn⟩)]
        · rw [hci]
          rw [if_neg ?_]
          · exact ihi j (by omega) hju hjn
          · intro hcon
            obtain ⟨⟨hnu, hnn⟩, hveq⟩ := hcon
            exact huniqI j (by omega) n (by omega) ⟨hje, hju, hnu, hjn⟩ hveq
      · intro j hj hju hjn
        by_cases hje : j = n
        · subst hje
          rw [hcv]
          rw [if_pos ⟨⟨hju, hjn⟩, rfl⟩]
          exact congrFun ihx j
        · rw [hcv]
          rw [if_neg ?_]
          · exact ihv j (by omega) hju hjn
          · intro hcon
            obtain ⟨⟨hnu, hnn⟩, hveq⟩ := hcon
            exact huniqX j (by omega) n (by omega) ⟨hje, hju, hnu, hjn⟩ hveq

/-- Claim C2 as amended: after flush_regs, every slot that was used and
bound to a nonzero guest id is unused and its guest cell holds the value
written back from the host register; slots bound to guest id zero (and
unused slots) are left untouched, in particular a used slot bound to
guest id zero is still used after the flush. Hypotheses: the state holds
no code yet, the RAX slot is unused, and within each pool at most one
used slot is bound to any given nonzero guest id (the documented pool
invariant). -/
theorem claim_C2 (s : JITState) (m : Machine)
    (hcode : s.code = [])
    (hRAX : (s.int_regs.getD RAX noSlot).used = false)
    (huniqI : ∀ j, j < 16 → ∀ k, k < 16 →
      (j ≠ k ∧ (s.int_regs.getD j noSlot).used = true ∧
        (s.int_regs.getD k noSlot).used = true ∧
        (s.int_regs.getD j noSlot).vu_reg ≠ 0) →
      (s.int_regs.getD j noSlot).vu_reg ≠ (s.int_regs.getD k noSlot).vu_reg)
    (huniqX : ∀ j, j < 16 → ∀ k, k < 16 →
      (j ≠ k ∧ (s.xmm_regs.getD j noSlot).used = true ∧
        (s.xmm_regs.getD k noSlot).used = true ∧
        (s.xmm_regs.getD j noSlot).vu_reg ≠ 0) →
      (s.xmm_regs.getD j noSlot).vu_reg ≠ (s.xmm_regs.getD k noSlot).vu_reg) :
    ∀ j, j < 16 →
      ((s.int_regs.getD j noSlot).used = true →
        (s.int_regs.getD j noSlot).vu_reg ≠ 0 →
        ((flush_regs s).int_regs.getD j noSlot).used = false ∧
        (runTrace m (flush_regs s).code).intMem
            (s.int_regs.getD j noSlot).vu_reg = (m.regs j).asInt % 65536) ∧
      ((s.int_regs.getD j noSlot).vu_reg = 0 ∨
          (s.int_regs.getD j noSlot).used = false →
        (flush_regs s).int_regs.getD j noSlot = s.int_regs.getD j noSlot) ∧
      ((s.xmm_regs.getD j noSlot).used = true →
        (s.xmm_regs.getD j noSlot).vu_reg ≠ 0 →
        ((flush_regs s).xmm_regs.getD j noSlot).used = false ∧
        (runTrace m (flush_regs s).code).vfMem
            (s.xmm_regs.getD j noSlot).vu_reg = m.xmms j) ∧
      ((s.xmm_regs.getD j noSlot).vu_reg = 0 ∨
          (s.xmm_regs.getD j noSlot).used = false →
        (flush_regs s).xmm_regs.getD j noSlot = s.xmm_regs.getD j noSlot) := by
  intro j hj
  obtain ⟨hc16, -, -, hltI, hltX⟩ := flushN_spec s 16
  have hcodeEq : (flush_regs s).code = flushCode s 16 := by
    rw [flush_regs_eq_flushN, hc16, hcode, List.nil_append]
  obtain ⟨-, -, hmi, hmv⟩ := runFlush_inv s m hRAX huniqI huniqX 16 (Nat.le_refl 16)
  refine ⟨?_, ?_, ?_, ?_⟩
  · intro hju hjn
    constructor
    · rw [flush_regs_eq_flushN, hltI j hj, if_pos ⟨hju, hjn⟩]
    · rw [hcodeEq]
      exact hmi j hj hju hjn
  · intro hz
    rw [flush_regs_eq_flushN, hltI j hj, if_neg ?_]
    intro hcon
    rcases hz with hz | hz
    · exact hcon.2 hz
    · rw [hz] at hcon
      exact absurd hcon.1 (by simp)
  · intro hju hjn
    constructor
    · rw [flush_regs_eq_flushN, hltX j hj, if_pos ⟨hju, hjn⟩]
    · rw [hcodeEq]
      exact hmv j hj hju hjn
  · intro hz
    rw [flush_regs_eq_flushN, hltX j hj, if_neg ?_]
    intro hcon
    rcases hz with hz | hz
    · exact hcon.2 hz
    · rw [hz] at hcon
      exact absurd hcon.1 (by simp)

/-- Claim C2, witness: a concrete state with slots bound to nonzero ids in
both pools and one slot bound to guest id zero. -/
theorem claim_C2_witness :
    (((flush_regs c2wstate).int_regs.getD 1 noSlot).used = false ∧
      (runTrace c2wmach (flush_regs c2wstate).code).intMem
        (c2wstate.int_regs.getD 1 noSlot).vu_reg =
        (c2wmach.regs 1).asInt % 65536) ∧
    ((flush_regs c2wstate).int_regs.getD 2 noSlot =
      c2wstate.int_regs.getD 2 noSlot) ∧
    (((flush_regs c2wstate).xmm_regs.getD 0 noSlot).used = false ∧
      (runTrace c2wmach (flush_regs c2wstate).code).vfMem
        (c2wstate.xmm_regs.getD 0 noSlot).vu_reg = c2wmach.xmms 0) := by
  have h1 := claim_C2 c2wstate c2wmach (by decide) (by decide) (by decide)
    (by decide) 1 (by decide)
  have h2 := claim_C2 c2wstate c2wmach (by decide) (by decide) (by decide)
    (by decide) 2 (by decide)
  have h0 := claim_C2 c2wstate c2wmach (by decide) (by decide) (by decide)
    (by decide) 0 (by decide)
  exact ⟨h1.1 (by decide) (by decide), h2.2.1 (Or.inl (by decide)),
    h0.2.2.1 (by decide) (by decide)⟩



theorem resetState_int_length : resetState.int_regs.length = 16 := by decide

theorem resetState_int_unused : ∀ j, j < 16 →
    (resetState.int_regs.getD j noSlot).used = false := by decide

theorem findHitFrom_reset (g : Nat) :
    findHitFrom resetState.int_regs g 0 = none := by
  apply findHitFrom_none_of_not_bound
  intro j hj hcon
  rw [resetState_int_length] at hj
  have h1 := hcon.1
  rw [resetState_int_unused j hj] at h1
  exact absurd h1 (by decide)

theorem alloc_int_reg_fresh (s : JITState) (g : Nat) (load : Bool)
    (hg : g < 16) (hi : s.int_regs = resetState.int_regs) :
    alloc_int_reg s g load = Except.ok (1,
      { s with
        int_regs := resetState.int_regs.set 1
          { vu_reg := g, used := true, locked := false, age := 0 },
        code := s.code ++ (if load then
            [Emit.i (HostInstr.loadAddr (GuestAddr.intGpr g) RAX),
             Emit.i (HostInstr.mov64FromMem RAX 1)]
          else []) }) := by
  unfold alloc_int_reg
  rw [hi, if_neg (Nat.not_le.mpr hg), findHitFrom_reset g]
  have hage : ageUsed resetState.int_regs = resetState.int_regs := by decide
  have hpick : pickFromInt resetState.int_regs 0 0 0 = 1 := by decide
  have hslot : resetState.int_regs.getD 1 noSlot = noSlot := by decide
  simp only [hage, hpick, hslot]
  have hnuse : noSlot.used = false := by decide
  simp only [hnuse, Bool.false_eq_true, if_false]
  cases load with
  | false => simp [emit, noSlot]
  | true => simp [emit, noSlot]

theorem mod32_mod16 (y : Nat) : y % 4294967296 % 65536 = y % 65536 :=
  Nat.mod_mod_of_dvd _ (by decide)

theorem except_bind_ok {α β : Type} (a : α) (k : α → Except String β) :
    (Except.ok a >>= k) = k a := rfl

set_option maxHeartbeats 1000000 in
/-- Claim C9 as amended: compiling a block whose single instruction is
BranchIndirect(src) from a cold (reset) allocator, for a guest register
src with 0 < src < 16, shifts the cached value in place: the emitted code
loads guest int src, shifts the host register left by 3, stores it to the
PC field, and the block-end flush then writes the SHIFTED value back, so
guest-state memory for src afterwards holds the original value shifted
left by 3 bits (in its 16-bit cell) rather than the original value. For
src = 0 the flush skips the slot and memory keeps the original value, see
the counterexample. -/
theorem claim_C9 (src : Nat) (cc : Nat) (m : Machine)
    (hs0 : 0 < src) (hs : src < 16) :
    ∃ s2, recompile_block resetState 0
        { instrs := [{ op := IROpcode.JumpIndirect, source := src }],
          cycle_count := cc } = Except.ok s2 ∧
      (runTrace m s2.code).intMem src = m.intMem src * 8 % 65536 ∧
      (runTrace m s2.code).pc = m.intMem src * 8 % 4294967296 := by
  have hsne : src ≠ 0 := by omega
  have halloc := alloc_int_reg_fresh
    { resetState with code := [Emit.cacheAllocBlock 0,
        Emit.i (HostInstr.push RBP), Emit.i (HostInstr.mov64Mr RSP RBP)] }
    src true hs rfl
  have hdisp : dispatch_block
      { resetState with code := [Emit.cacheAllocBlock 0,
          Emit.i (HostInstr.push RBP), Emit.i (HostInstr.mov64Mr RSP RBP)] }
      [{ op := IROpcode.JumpIndirect, source := src }] = Except.ok
      { resetState with
        int_regs := resetState.int_regs.set 1
          { vu_reg := src, used := true, locked := false, age := 0 },
        code := [Emit.cacheAllocBlock 0,
          Emit.i (HostInstr.push RBP), Emit.i (HostInstr.mov64Mr RSP RBP),
          Emit.i (HostInstr.loadAddr (GuestAddr.intGpr src) RAX),
          Emit.i (HostInstr.mov64FromMem RAX 1),
          Emit.i (HostInstr.shl32RegImm 3 1),
          Emit.i (HostInstr.loadAddr GuestAddr.pc RAX),
          Emit.i (HostInstr.mov32ToMem 1 RAX)] } := by
    unfold dispatch_block dispatch_instr jump_indirect defaultLoadState
    dsimp only
    rw [halloc]
    simp only [emit, dispatch_block]
    rfl
  have hflushcode : flushCode
      { resetState with
        int_regs := resetState.int_regs.set 1
          { vu_reg := src, used := true, locked := false, age := 0 },
        code := [Emit.cacheAllocBlock 0,
          Emit.i (HostInstr.push RBP), Emit.i (HostInstr.mov64Mr RSP RBP),
          Emit.i (HostInstr.loadAddr (GuestAddr.intGpr src) RAX),
          Emit.i (HostInstr.mov64FromMem RAX 1),
          Emit.i (HostInstr.shl32RegImm 3 1),
          Emit.i (HostInstr.loadAddr GuestAddr.pc RAX),
          Emit.i (HostInstr.mov32ToMem 1 RAX)] } 16 =
      [Emit.i (HostInstr.loadAddr (GuestAddr.intGpr src) RAX),
       Emit.i (HostInstr.mov64ToMem 1 RAX)] := by
    simp [flushCode, flushChunk, resetState, noSlot, hsne, RAX, RSP]
  obtain ⟨hfc, -, -, -, -⟩ := flushN_spec
    { resetState with
      int_regs := resetState.int_regs.set 1
        { vu_reg := src, used := true, locked := false, age := 0 },
      code := [Emit.cacheAllocBlock 0,
        Emit.i (HostInstr.push RBP), Emit.i (HostInstr.mov64Mr RSP RBP),
        Emit.i (HostInstr.loadAddr (GuestAddr.intGpr src) RAX),
        Emit.i (HostInstr.mov64FromMem RAX 1),
        Emit.i (HostInstr.shl32RegImm 3 1),
        Emit.i (HostInstr.loadAddr GuestAddr.pc RAX),
        Emit.i (HostInstr.mov32ToMem 1 RAX)] } 16
  rw [hflushcode] at hfc
  have hs1 : (emit { resetState with
      code := resetState.code ++ [Emit.cacheAllocBlock 0] }
      [Emit.i (HostInstr.push RBP), Emit.i (HostInstr.mov64Mr RSP RBP)]) =
      { resetState with code := [Emit.cacheAllocBlock 0,
        Emit.i (HostInstr.push RBP), Emit.i (HostInstr.mov64Mr RSP RBP)] } := by
    decide
  have hrec : recompile_block resetState 0
      { instrs := [{ op := IROpcode.JumpIndirect, source := src }],
        cycle_count := cc } = Except.ok
      { flush_regs
          { resetState with
            int_regs := resetState.int_regs.set 1
              { vu_reg := src, used := true, locked := false, age := 0 },
            code := [Emit.cacheAllocBlock 0,
              Emit.i (HostInstr.push RBP), Emit.i (HostInstr.mov64Mr RSP RBP),
              Emit.i (HostInstr.loadAddr (GuestAddr.intGpr src) RAX),
              Emit.i (HostInstr.mov64FromMem RAX 1),
              Emit.i (HostInstr.shl32RegImm 3 1),
              Emit.i (HostInstr.loadAddr GuestAddr.pc RAX),
              Emit.i (HostInstr.mov32ToMem 1 RAX)] } with
        code := (((flush_regs
          { resetState with
            int_regs := resetState.int_regs.set 1
              { vu_reg := src, used := true, locked := false, age := 0 },
            code := [Emit.cacheAllocBlock 0,
              Emit.i (HostInstr.push RBP), Emit.i (HostInstr.mov64Mr RSP RBP),
              Emit.i (HostInstr.loadAddr (GuestAddr.intGpr src) RAX),
              Emit.i (HostInstr.mov64FromMem RAX 1),
              Emit.i (HostInstr.shl32RegImm 3 1),
              Emit.i (HostInstr.loadAddr GuestAddr.pc RAX),
              Emit.i (HostInstr.mov32ToMem 1 RAX)] }).code ++
          [Emit.i (HostInstr.mov16RegImm cc RAX)]) ++
          [Emit.i (HostInstr.pop RBP), Emit.i HostInstr.ret]) ++
          [Emit.cacheSetRX] } := by
    unfold recompile_block
    simp only [hs1]
    rw [hdisp, except_bind_ok]
    dsimp only
    generalize flush_regs
      { resetState with
        int_regs := resetState.int_regs.set 1
          { vu_reg := src, used := true, locked := false, age := 0 },
        code := [Emit.cacheAllocBlock 0,
          Emit.i (HostInstr.push RBP), Emit.i (HostInstr.mov64Mr RSP RBP),
          Emit.i (HostInstr.loadAddr (GuestAddr.intGpr src) RAX),
          Emit.i (HostInstr.mov64FromMem RAX 1),
          Emit.i (HostInstr.shl32RegImm 3 1),
          Emit.i (HostInstr.loadAddr GuestAddr.pc RAX),
          Emit.i (HostInstr.mov32ToMem 1 RAX)] } = F
    rfl
  refine ⟨_, hrec, ?_, ?_⟩
  · dsimp only
    rw [flush_regs_eq_flushN, hfc]
    dsimp only
    simp only [List.cons_append, List.nil_append, List.append_assoc]
    simp [runTrace, runEmit, runInstr, setReg, store32, store64, load64,
      HVal.asInt, RAX, hsne, setLow16]
    exact mod32_mod16 (m.intMem src * 8)
  · dsimp only
    rw [flush_regs_eq_flushN, hfc]
    dsimp only
    simp only [List.cons_append, List.nil_append, List.append_assoc]
    simp [runTrace, runEmit, runInstr, setReg, store32, store64, load64,
      HVal.asInt, RAX, hsne, setLow16]

/-- Claim C9, counterexample to the unrestricted claim: for src = 0 the
block-end flush skips the slot (guest id zero), so guest memory for
register 0 still holds the original value 1, not the shifted value 8 the
claim asserts. -/
theorem counterexample_C9 :
    isOk (recompile_block resetState 0 c9zblock) = true ∧
    ((recompile_block resetState 0 c9zblock).toOption.map
      (fun s => (runTrace c9zmach s.code).intMem 0)).getD 99 = 1 ∧
    c9zmach.intMem 0 * 8 % 65536 = 8 ∧ (1 : Nat) ≠ 8 := by decide

/-- Claim C9, witness: src = 3 with original value 1 ends with guest
register 3 holding 8 (the shifted value) and the PC holding 8. -/
theorem claim_C9_witness :
    ∃ s2, recompile_block resetState 0 c9block = Except.ok s2 ∧
      (runTrace c9mach s2.code).intMem 3 = c9mach.intMem 3 * 8 % 65536 ∧
      (runTrace c9mach s2.code).pc = c9mach.intMem 3 * 8 % 4294967296 :=
  claim_C9 3 2 c9mach (by decide) (by decide)


/-- The second integer acquire after reset, for a different guest id:
slot 2 (RDX) is selected, slot 1 ages to 1, no spill happens, and a fill
is emitted. -/
theorem alloc_int_reg_second (s : JITState) (g g2 : Nat) (hg2 : g2 < 16)
    (hne : g2 ≠ g)
    (hi : s.int_regs = resetState.int_regs.set 1
      { vu_reg := g, used := true, locked := false, age := 0 }) :
    alloc_int_reg s g2 true = Except.ok (2,
      { s with
        int_regs := (resetState.int_regs.set 1
          { vu_reg := g, used := true, locked := false, age := 1 }).set 2
          { vu_reg := g2, used := true, locked := false, age := 0 },
        code := s.code ++
          [Emit.i (HostInstr.loadAddr (GuestAddr.intGpr g2) RAX),
           Emit.i (HostInstr.mov64FromMem RAX 2)] }) := by
  have hmiss : findHitFrom (resetState.int_regs.set 1
      { vu_reg := g, used := true, locked := false, age := 0 }) g2 0 = none := by
    apply findHitFrom_none_of_not_bound
    intro j hj hcon
    have hlen : (resetState.int_regs.set 1
        { vu_reg := g, used := true, locked := false, age := 0 }).length = 16 := by
      simp [resetState_int_length]
    rw [hlen] at hj
    by_cases hje : j = 1
    · subst hje
      rw [getD_set_self _ 1 _ _ (by rw [resetState_int_length]; omega)] at hcon
      exact hne (hcon.2.symm)
    · rw [getD_set_ne _ 1 j _ _ (fun he => hje he.symm)] at hcon
      have := resetState_int_unused j hj
      rw [this] at hcon
      exact absurd hcon.1 (by decide)
  have hage : ageUsed (resetState.int_regs.set 1
      { vu_reg := g, used := true, locked := false, age := 0 }) =
      resetState.int_regs.set 1
        { vu_reg := g, used := true, locked := false, age := 1 } := by
    unfold ageUsed
    rw [List.map_set]
    have : List.map (fun s => if s.used = true then
        { s with age := s.age + 1 } else s) resetState.int_regs =
        resetState.int_regs := by decide
    rw [this]
    rfl
  have hpick : pickFromInt (resetState.int_regs.set 1
      { vu_reg := g, used := true, locked := false, age := 1 }) 0 0 0 = 2 := by
    have hl : resetState.int_regs = { locked := true } :: noSlot :: noSlot ::
        noSlot :: ({ locked := true } : RegSlot) :: noSlot :: noSlot :: noSlot ::
        noSlot :: noSlot :: noSlot :: noSlot :: noSlot :: noSlot :: noSlot ::
        noSlot :: [] := by decide
    rw [hl]
    simp [pickFromInt, noSlot]
  unfold alloc_int_reg
  rw [hi, if_neg (Nat.not_le.mpr hg2), hmiss]
  simp only [hage, hpick]
  have hslot : (resetState.int_regs.set 1
      { vu_reg := g, used := true, locked := false, age := 1 }).getD 2 noSlot =
      noSlot := by
    rw [getD_set_ne _ 1 2 _ _ (by omega)]
    decide
  simp only [hslot]
  have hnuse : noSlot.used = false := by decide
  simp only [hnuse, Bool.false_eq_true, if_false, if_true]
  simp [emit, noSlot]

/-- Claim C7, counterexample to the unrestricted claim: for
AddImmediateUnsigned with dest = src (here both 1, imm = 0) the source is
resolved as a cache hit on the slot just allocated WITHOUT loading guest
state, so the emitted code adds imm to the stale host register content
(5), not to the guest value of src (1); after the block, guest register 1
reads 5 while the claim demands (1 + 0) mod 2^16 = 1. -/
theorem counterexample_C7 :
    isOk (recompile_block resetState 0 c7cexBlock) = true ∧
    ((recompile_block resetState 0 c7cexBlock).toOption.map
      (fun s => (runTrace c7mach s.code).intMem 1)).getD 99 = 5 ∧
    (c7mach.intMem 1 + 0) % 65536 = 1 ∧ (5 : Nat) ≠ 1 := by decide

set_option maxHeartbeats 1000000 in
/-- Claim C7 as amended: for dest ≠ src and dest ≠ 0, compiling
AddImmediateUnsigned(dest, src, imm16) from a cold (reset) allocator
emits code that leaves guest register dest holding
(value of guest src + imm16) mod 2^16 after the block-end flush; the
16-bit wraparound of Scenario C is the witness. The restriction is
forced: with dest = src the source hit skips the guest-state load, and
with dest = 0 the flush never writes dest back. -/
theorem claim_C7 (dest src imm cc : Nat) (m : Machine)
    (hd : dest < 16) (hs : src < 16) (hds : dest ≠ src) (hd0 : dest ≠ 0) :
    ∃ s2, recompile_block resetState 0
        { instrs := [{ op := IROpcode.AddUnsignedImm, dest := dest,
                       source := src, source2 := imm }],
          cycle_count := cc } = Except.ok s2 ∧
      (runTrace m s2.code).intMem dest = (m.intMem src + imm) % 65536 := by
  have hsd : src ≠ dest := fun h => hds h.symm
  have halloc1 : alloc_int_reg
      { resetState with code := [Emit.cacheAllocBlock 0,
          Emit.i (HostInstr.push RBP), Emit.i (HostInstr.mov64Mr RSP RBP)] }
      dest false = Except.ok (1,
      { resetState with
        int_regs := resetState.int_regs.set 1
          { vu_reg := dest, used := true, locked := false, age := 0 },
        code := [Emit.cacheAllocBlock 0,
          Emit.i (HostInstr.push RBP), Emit.i (HostInstr.mov64Mr RSP RBP)] }) := by
    rw [alloc_int_reg_fresh
      { resetState with code := [Emit.cacheAllocBlock 0,
          Emit.i (HostInstr.push RBP), Emit.i (HostInstr.mov64Mr RSP RBP)] }
      dest false hd rfl]
    rfl
  have halloc2 : alloc_int_reg
      { resetState with
        int_regs := resetState.int_regs.set 1
          { vu_reg := dest, used := true, locked := false, age := 0 },
        code := [Emit.cacheAllocBlock 0,
          Emit.i (HostInstr.push RBP), Emit.i (HostInstr.mov64Mr RSP RBP)] }
      src true = Except.ok (2,
      { resetState with
        int_regs := (resetState.int_regs.set 1
          { vu_reg := dest, used := true, locked := false, age := 1 }).set 2
          { vu_reg := src, used := true, locked := false, age := 0 },
        code := [Emit.cacheAllocBlock 0,
          Emit.i (HostInstr.push RBP), Emit.i (HostInstr.mov64Mr RSP RBP),
          Emit.i (HostInstr.loadAddr (GuestAddr.intGpr src) RAX),
          Emit.i (HostInstr.mov64FromMem RAX 2)] }) := by
    rw [alloc_int_reg_second
      { resetState with
        int_regs := resetState.int_regs.set 1
          { vu_reg := dest, used := true, locked := false, age := 0 },
        code := [Emit.cacheAllocBlock 0,
          Emit.i (HostInstr.push RBP), Emit.i (HostInstr.mov64Mr RSP RBP)] }
      dest src hs hsd rfl]
    rfl
  have hdisp : dispatch_block
      { resetState with code := [Emit.cacheAllocBlock 0,
          Emit.i (HostInstr.push RBP), Emit.i (HostInstr.mov64Mr RSP RBP)] }
      [{ op := IROpcode.AddUnsignedImm, dest := dest, source := src,
         source2 := imm }] = Except.ok
      { resetState with
        int_regs := (resetState.int_regs.set 1
          { vu_reg := dest, used := true, locked := false, age := 1 }).set 2
          { vu_reg := src, used := true, locked := false, age := 0 },
        code := [Emit.cacheAllocBlock 0,
          Emit.i (HostInstr.push RBP), Emit.i (HostInstr.mov64Mr RSP RBP),
          Emit.i (HostInstr.loadAddr (GuestAddr.intGpr src) RAX),
          Emit.i (HostInstr.mov64FromMem RAX 2),
          Emit.i (HostInstr.mov16Reg 2 1),
          Emit.i (HostInstr.add16RegImm imm 1)] } := by
    unfold dispatch_block dispatch_instr add_unsigned_imm defaultLoadState
    dsimp only
    rw [halloc1, except_bind_ok]
    dsimp only
    rw [halloc2, except_bind_ok]
    simp only [emit, dispatch_block]
    rfl
  have hflushcode : flushCode
      { resetState with
        int_regs := (resetState.int_regs.set 1
          { vu_reg := dest, used := true, locked := false, age := 1 }).set 2
          { vu_reg := src, used := true, locked := false, age := 0 },
        code := [Emit.cacheAllocBlock 0,
          Emit.i (HostInstr.push RBP), Emit.i (HostInstr.mov64Mr RSP RBP),
          Emit.i (HostInstr.loadAddr (GuestAddr.intGpr src) RAX),
          Emit.i (HostInstr.mov64FromMem RAX 2),
          Emit.i (HostInstr.mov16Reg 2 1),
          Emit.i (HostInstr.add16RegImm imm 1)] } 16 =
      [Emit.i (HostInstr.loadAddr (GuestAddr.intGpr dest) RAX),
       Emit.i (HostInstr.mov64ToMem 1 RAX)] ++
      (if src = 0 then [] else
       [Emit.i (HostInstr.loadAddr (GuestAddr.intGpr src) RAX),
        Emit.i (HostInstr.mov64ToMem 2 RAX)]) := by
    by_cases hsz : src = 0
    · subst hsz
      simp [flushCode, flushChunk, resetState, noSlot, hd0, RAX, RSP]
    · simp [flushCode, flushChunk, resetState, noSlot, hd0, hsz, RAX, RSP]
  obtain ⟨hfc, -, -, -, -⟩ := flushN_spec
    { resetState with
      int_regs := (resetState.int_regs.set 1
        { vu_reg := dest, used := true, locked := false, age := 1 }).set 2
        { vu_reg := src, used := true, locked := false, age := 0 },
      code := [Emit.cacheAllocBlock 0,
        Emit.i (HostInstr.push RBP), Emit.i (HostInstr.mov64Mr RSP RBP),
        Emit.i (HostInstr.loadAddr (GuestAddr.intGpr src) RAX),
        Emit.i (HostInstr.mov64FromMem RAX 2),
        Emit.i (HostInstr.mov16Reg 2 1),
        Emit.i (HostInstr.add16RegImm imm 1)] } 16
  rw [hflushcode] at hfc
  have hs1 : (emit { resetState with
      code := resetState.code ++ [Emit.cacheAllocBlock 0] }
      [Emit.i (HostInstr.push RBP), Emit.i (HostInstr.mov64Mr RSP RBP)]) =
      { resetState with code := [Emit.cacheAllocBlock 0,
        Emit.i (HostInstr.push RBP), Emit.i (HostInstr.mov64Mr RSP RBP)] } := by
    decide
  have hrec : recompile_block resetState 0
      { instrs := [{ op := IROpcode.AddUnsignedImm, dest := dest,
                     source := src, source2 := imm }],
        cycle_count := cc } = Except.ok
      { flush_regs
          { resetState with
            int_regs := (resetState.int_regs.set 1
              { vu_reg := dest, used := true, locked := false, age := 1 }).set 2
              { vu_reg := src, used := true, locked := false, age := 0 },
            code := [Emit.cacheAllocBlock 0,
              Emit.i (HostInstr.push RBP), Emit.i (HostInstr.mov64Mr RSP RBP),
              Emit.i (HostInstr.loadAddr (GuestAddr.intGpr src) RAX),
              Emit.i (HostInstr.mov64FromMem RAX 2),
              Emit.i (HostInstr.mov16Reg 2 1),
              Emit.i (HostInstr.add16RegImm imm 1)] } with
        code := (((flush_regs
          { resetState with
            int_regs := (resetState.int_regs.set 1
              { vu_reg := dest, used := true, locked := false, age := 1 }).set 2
              { vu_reg := src, used := true, locked := false, age := 0 },
            code := [Emit.cacheAllocBlock 0,
              Emit.i (HostInstr.push RBP), Emit.i (HostInstr.mov64Mr RSP RBP),
              Emit.i (HostInstr.loadAddr (GuestAddr.intGpr src) RAX),
              Emit.i (HostInstr.mov64FromMem RAX 2),
              Emit.i (HostInstr.mov16Reg 2 1),
              Emit.i (HostInstr.add16RegImm imm 1)] }).code ++
          [Emit.i (HostInstr.mov16RegImm cc RAX)]) ++
          [Emit.i (HostInstr.pop RBP), Emit.i HostInstr.ret]) ++
          [Emit.cacheSetRX] } := by
    unfold recompile_block
    simp only [hs1]
    rw [hdisp, except_bind_ok]
    dsimp only
    generalize flush_regs
      { resetState with
        int_regs := (resetState.int_regs.set 1
          { vu_reg := dest, used := true, locked := false, age := 1 }).set 2
          { vu_reg := src, used := true, locked := false, age := 0 },
        code := [Emit.cacheAllocBlock 0,
          Emit.i (HostInstr.push RBP), Emit.i (HostInstr.mov64Mr RSP RBP),
          Emit.i (HostInstr.loadAddr (GuestAddr.intGpr src) RAX),
          Emit.i (HostInstr.mov64FromMem RAX 2),
          Emit.i (HostInstr.mov16Reg 2 1),
          Emit.i (HostInstr.add16RegImm imm 1)] } = F
    rfl
  refine ⟨_, hrec, ?_⟩
  dsimp only
  rw [flush_regs_eq_flushN, hfc]
  dsimp only
  by_cases hsz : src = 0
  · rw [if_pos hsz]
    subst hsz
    simp only [List.cons_append, List.nil_append, List.append_assoc]
    simp [runTrace, runEmit, runInstr, setReg, store32, store64, load64,
      HVal.asInt, RAX, hd0, hds, setLow16]
    omega
  · rw [if_neg hsz]
    simp only [List.cons_append, List.nil_append, List.append_assoc]
    simp [runTrace, runEmit, runInstr, setReg, store32, store64, load64,
      HVal.asInt, RAX, hd0, hds, hsd, setLow16]
    omega

/-- Claim C7, witness (Scenario C): dest = int2, src = int1, imm = 0xFFFF
with guest int1 = 1 gives guest int2 = 0x0000 after the block. -/
theorem claim_C7_witness :
    (∃ s2, recompile_block resetState 0 c7block = Except.ok s2 ∧
      (runTrace c7mach s2.code).intMem 2 = (c7mach.intMem 1 + 65535) % 65536) ∧
    (c7mach.intMem 1 + 65535) % 65536 = 0 :=
  ⟨claim_C7 2 1 65535 9 c7mach (by decide) (by decide) (by decide) (by decide),
    by decide⟩

theorem except_bind_error {α β : Type} (e : String) (k : α → Except String β) :
    ((Except.error e : Except String α) >>= k) = Except.error e := rfl

theorem except_map_ok {α β : Type} (f : α → β) (a : α) :
    (f <$> (Except.ok a : Except String α)) = Except.ok (f a) := rfl

theorem except_map_error {α β : Type} (f : α → β) (e : String) :
    (f <$> (Except.error e : Except String α)) = Except.error e := rfl

theorem alloc_int_reg_code (s : JITState) (g : Nat) (load : Bool) (r : Nat)
    (s2 : JITState) (h : alloc_int_reg s g load = Except.ok (r, s2)) :
    ∃ d, s2.code = s.code ++ d := by
  unfold alloc_int_reg at h
  by_cases hg : 16 ≤ g
  · rw [if_pos hg] at h
    exact absurd h (by simp)
  · rw [if_neg hg] at h
    cases hf : findHitFrom s.int_regs g 0 with
    | some i =>
        rw [hf] at h
        simp only [Except.ok.injEq, Prod.mk.injEq] at h
        exact ⟨[], by rw [← h.2, List.append_nil]⟩
    | none =>
        rw [hf] at h
        by_cases hu : ((ageUsed s.int_regs).getD
            (pickFromInt (ageUsed s.int_regs) 0 0 0) noSlot).used = true
        · by_cases hl : load = true
          · simp only [hu, hl, if_true, Except.ok.injEq, Prod.mk.injEq] at h
            obtain ⟨-, h2⟩ := h
            subst h2
            exact ⟨_, List.append_assoc _ _ _⟩
          · simp only [hu, hl, if_true, if_false, Except.ok.injEq, Prod.mk.injEq] at h
            obtain ⟨-, h2⟩ := h
            subst h2
            exact ⟨_, rfl⟩
        · by_cases hl : load = true
          · simp only [hu, hl, if_true, if_false, Except.ok.injEq, Prod.mk.injEq] at h
            obtain ⟨-, h2⟩ := h
            subst h2
            exact ⟨_, rfl⟩
          · simp only [hu, hl, if_false, Except.ok.injEq, Prod.mk.injEq] at h
            obtain ⟨-, h2⟩ := h
            subst h2
            exact ⟨[], (List.append_nil _).symm⟩

theorem alloc_sse_reg_code (s : JITState) (g : Nat) (load : Bool) (r : Nat)
    (s2 : JITState) (h : alloc_sse_reg s g load = Except.ok (r, s2)) :
    ∃ d, s2.code = s.code ++ d := by
  unfold alloc_sse_reg at h
  by_cases hg : 32 ≤ g
  · rw [if_pos hg] at h
    exact absurd h (by simp)
  · rw [if_neg hg] at h
    cases hf : findHitFrom s.xmm_regs g 0 with
    | some i =>
        rw [hf] at h
        simp only [Except.ok.injEq, Prod.mk.injEq] at h
        exact ⟨[], by rw [← h.2, List.append_nil]⟩
    | none =>
        rw [hf] at h
        by_cases hu : ((ageUsed s.xmm_regs).getD
            (pickFromSSE (ageUsed s.xmm_regs) 0 0 0) noSlot).used = true
        · by_cases hl : load = true
          · simp only [hu, hl, if_true, Except.ok.injEq, Prod.mk.injEq] at h
            obtain ⟨-, h2⟩ := h
            subst h2
            exact ⟨_, List.append_assoc _ _ _⟩
          · simp only [hu, hl, if_true, if_false, Except.ok.injEq, Prod.mk.injEq] at h
            obtain ⟨-, h2⟩ := h
            subst h2
            exact ⟨_, rfl⟩
        · by_cases hl : load = true
          · simp only [hu, hl, if_true, if_false, Except.ok.injEq, Prod.mk.injEq] at h
            obtain ⟨-, h2⟩ := h
            subst h2
            exact ⟨_, rfl⟩
          · simp only [hu, hl, if_false, Except.ok.injEq, Prod.mk.injEq] at h
            obtain ⟨-, h2⟩ := h
            subst h2
            exact ⟨[], (List.append_nil _).symm⟩

/-- Every dispatcher handler only appends to the emission trace. -/
theorem dispatch_instr_code (s : JITState) (instr : IRInstruction)
    (s2 : JITState) (h : dispatch_instr s instr = Except.ok s2) :
    ∃ d, s2.code = s.code ++ d := by
  unfold dispatch_instr at h
  cases hop : instr.op <;> rw [hop] at h <;> (try dsimp only at h)
  case LoadConst =>
      unfold load_const at h
      cases halloc : alloc_int_reg s instr.dest false with
      | error e =>
          rw [halloc, except_bind_error] at h
          exact absurd h (by simp)
      | ok p =>
          obtain ⟨rr, s1⟩ := p
          obtain ⟨d1, hd1⟩ := alloc_int_reg_code s instr.dest false rr s1 halloc
          rw [halloc, except_bind_ok] at h
          try dsimp only at h
          injection h with h
          subst h
          exact ⟨d1 ++ [Emit.i (HostInstr.mov16RegImm instr.source rr)],
            by simp [emit, hd1]⟩
  case MoveIntReg =>
      unfold move_int_reg at h
      cases halloc : alloc_int_reg s instr.dest false with
      | error e =>
          rw [halloc, except_bind_error] at h
          exact absurd h (by simp)
      | ok p =>
          obtain ⟨rr, s1⟩ := p
          obtain ⟨d1, hd1⟩ := alloc_int_reg_code s instr.dest false rr s1 halloc
          rw [halloc, except_bind_ok] at h
          try dsimp only at h
          cases halloc2 : alloc_int_reg s1 instr.source (decide (¬rr = 0)) with
          | error e =>
              rw [halloc2, except_bind_error] at h
              exact absurd h (by simp)
          | ok p2 =>
              obtain ⟨rr2, s2x⟩ := p2
              obtain ⟨d2, hd2⟩ := alloc_int_reg_code s1 instr.source
                (decide (¬rr = 0)) rr2 s2x halloc2
              rw [halloc2, except_bind_ok] at h
              try dsimp only at h
              injection h with h
              subst h
              exact ⟨d1 ++ (d2 ++ [Emit.i (HostInstr.mov16Reg rr2 rr)]),
                by simp [emit, hd2, hd1]⟩
  case Jump =>
      injection h with h
      subst h
      exact ⟨_, rfl⟩
  case JumpAndLink =>
      unfold jump_and_link at h
      try dsimp only at h
      cases halloc : alloc_int_reg
          (emit s [Emit.i (HostInstr.loadAddr GuestAddr.pc RAX),
            Emit.i (HostInstr.mov32MiMem instr.jump_dest RAX)])
          instr.dest defaultLoadState with
      | error e =>
          rw [halloc, except_bind_error] at h
          exact absurd h (by simp)
      | ok p =>
          obtain ⟨rr, s1⟩ := p
          obtain ⟨d1, hd1⟩ := alloc_int_reg_code _ instr.dest defaultLoadState
            rr s1 halloc
          rw [halloc, except_bind_ok] at h
          try dsimp only at h
          injection h with h
          subst h
          refine ⟨[Emit.i (HostInstr.loadAddr GuestAddr.pc RAX),
            Emit.i (HostInstr.mov32MiMem instr.jump_dest RAX)] ++
            (d1 ++ [Emit.i (HostInstr.mov64Oi instr.return_addr rr)]), ?_⟩
          simp only [emit] at hd1
          simp [emit, hd1]
  case VMulVectorByScalar =>
      injection h with h
      subst h
      exact ⟨[], (List.append_nil _).symm⟩
  case JumpIndirect =>
      unfold jump_indirect at h
      cases halloc : alloc_int_reg s instr.source defaultLoadState with
      | error e =>
          rw [halloc, except_bind_error] at h
          exact absurd h (by simp)
      | ok p =>
          obtain ⟨rr, s1⟩ := p
          obtain ⟨d1, hd1⟩ := alloc_int_reg_code s instr.source defaultLoadState
            rr s1 halloc
          rw [halloc, except_bind_ok] at h
          try dsimp only at h
          injection h with h
          subst h
          exact ⟨d1 ++ [Emit.i (HostInstr.shl32RegImm 3 rr),
            Emit.i (HostInstr.loadAddr GuestAddr.pc RAX),
            Emit.i (HostInstr.mov32ToMem rr RAX)], by simp [emit, hd1]⟩
  case AddUnsignedImm =>
      unfold add_unsigned_imm at h
      cases halloc : alloc_int_reg s instr.dest false with
      | error e =>
          rw [halloc, except_bind_error] at h
          exact absurd h (by simp)
      | ok p =>
          obtain ⟨rr, s1⟩ := p
          obtain ⟨d1, hd1⟩ := alloc_int_reg_code s instr.dest false rr s1 halloc
          rw [halloc, except_bind_ok] at h
          try dsimp only at h
          cases halloc2 : alloc_int_reg s1 instr.source defaultLoadState with
          | error e =>
              rw [halloc2, except_bind_error] at h
              exact absurd h (by simp)
          | ok p2 =>
              obtain ⟨rr2, s2x⟩ := p2
              obtain ⟨d2, hd2⟩ := alloc_int_reg_code s1 instr.source
                defaultLoadState rr2 s2x halloc2
              rw [halloc2, except_bind_ok] at h
              try dsimp only at h
              injection h with h
              subst h
              exact ⟨d1 ++ (d2 ++ [Emit.i (HostInstr.mov16Reg rr2 rr),
                Emit.i (HostInstr.add16RegImm instr.source2 rr)]),
                by simp [emit, hd2, hd1]⟩
  case Other => exact absurd h (by simp)

/-- Draining a block only appends to the emission trace. -/
theorem dispatch_block_code (l : List IRInstruction) :
    ∀ (s s2 : JITState), dispatch_block s l = Except.ok s2 →
      ∃ d, s2.code = s.code ++ d := by
  induction l with
  | nil =>
      intro s s2 h
      simp only [dispatch_block, Except.ok.injEq] at h
      subst h
      exact ⟨[], (List.append_nil _).symm⟩
  | cons i rest ih =>
      intro s s2 h
      unfold dispatch_block at h
      cases hi : dispatch_instr s i with
      | error e =>
          rw [hi, except_bind_error] at h
          exact absurd h (by simp)
      | ok s1 =>
          rw [hi, except_bind_ok] at h
          obtain ⟨d1, hd1⟩ := dispatch_instr_code s i s1 hi
          obtain ⟨d2, hd2⟩ := ih s1 s2 h
          exact ⟨d1 ++ d2, by rw [hd2, hd1, List.append_assoc]⟩

/-- Draining a concatenation of instruction lists is draining the first
list and then the second: the block is consumed strictly in order. -/
theorem dispatch_block_append (l1 l2 : List IRInstruction) :
    ∀ (s : JITState), dispatch_block s (l1 ++ l2) =
      (dispatch_block s l1).bind (fun t => dispatch_block t l2) := by
  induction l1 with
  | nil => intro s; rfl
  | cons i rest ih =>
      intro s
      have hL : dispatch_block s ((i :: rest) ++ l2) =
          (dispatch_instr s i) >>= (fun s1 => dispatch_block s1 (rest ++ l2)) := rfl
      have hR : dispatch_block s (i :: rest) =
          (dispatch_instr s i) >>= (fun s1 => dispatch_block s1 rest) := rfl
      rw [hL, hR]
      cases hi : dispatch_instr s i with
      | error e => rfl
      | ok s1 =>
          rw [except_bind_ok, except_bind_ok]
          exact ih s1

/-- Claim C8: a successful compile performs its steps in the fixed order:
the cache entry reservation event comes first, then the prologue
(push RBP; mov RBP, RSP), then the code of the drained block body, then
the flush of the allocator pools, then the load of the precomputed cycle
count into RAX, then the epilogue (pop RBP; ret), and the RW-to-RX
protection flip event is last; moreover draining a concatenation of
instruction sequences equals draining the first part and then the second,
so the block is consumed strictly in order until empty. -/
theorem claim_C8 (s : JITState) (pc : Nat) (b : IRBlock) (s2 : JITState)
    (h : recompile_block s pc b = Except.ok s2) :
    ∃ sd bodyCode,
      dispatch_block
        { s with code := s.code ++ [Emit.cacheAllocBlock pc] ++
            [Emit.i (HostInstr.push RBP), Emit.i (HostInstr.mov64Mr RSP RBP)] }
        b.instrs = Except.ok sd ∧
      sd.code = s.code ++ [Emit.cacheAllocBlock pc] ++
        [Emit.i (HostInstr.push RBP), Emit.i (HostInstr.mov64Mr RSP RBP)] ++
        bodyCode ∧
      s2.code = s.code ++ [Emit.cacheAllocBlock pc] ++
        [Emit.i (HostInstr.push RBP), Emit.i (HostInstr.mov64Mr RSP RBP)] ++
        bodyCode ++ flushCode sd 16 ++
        [Emit.i (HostInstr.mov16RegImm b.cycle_count RAX)] ++
        [Emit.i (HostInstr.pop RBP), Emit.i HostInstr.ret] ++
        [Emit.cacheSetRX] ∧
      (∀ (s0 : JITState) (l1 l2 : List IRInstruction),
        dispatch_block s0 (l1 ++ l2) =
          (dispatch_block s0 l1).bind (fun t => dispatch_block t l2)) := by
  unfold recompile_block at h
  try dsimp only at h
  cases hd : dispatch_block
      (emit { s with code := s.code ++ [Emit.cacheAllocBlock pc] }
        [Emit.i (HostInstr.push RBP), Emit.i (HostInstr.mov64Mr RSP RBP)])
      b.instrs with
  | error e =>
      rw [hd, except_bind_error] at h
      exact absurd h (by simp)
  | ok sd =>
      rw [hd, except_bind_ok] at h
      try dsimp only at h
      injection h with h
      subst h
      obtain ⟨body, hbody⟩ := dispatch_block_code b.instrs _ sd hd
      obtain ⟨hfc, -, -, -, -⟩ := flushN_spec sd 16
      refine ⟨sd, body, hd, hbody, ?_, fun s0 l1 l2 => dispatch_block_append l1 l2 s0⟩
      show (((flush_regs sd).code ++ _) ++ _) ++ _ = _
      rw [flush_regs_eq_flushN, hfc, hbody]
      simp [emit, List.append_assoc]

/-- Claim C8, witness: the concrete one-instruction block c1block compiled
from reset. -/
theorem claim_C8_witness :
    ∃ sd bodyCode,
      dispatch_block
        { resetState with code := resetState.code ++ [Emit.cacheAllocBlock 0] ++
            [Emit.i (HostInstr.push RBP), Emit.i (HostInstr.mov64Mr RSP RBP)] }
        c1block.instrs = Except.ok sd ∧
      sd.code = resetState.code ++ [Emit.cacheAllocBlock 0] ++
        [Emit.i (HostInstr.push RBP), Emit.i (HostInstr.mov64Mr RSP RBP)] ++
        bodyCode ∧
      c8state.code = resetState.code ++ [Emit.cacheAllocBlock 0] ++
        [Emit.i (HostInstr.push RBP), Emit.i (HostInstr.mov64Mr RSP RBP)] ++
        bodyCode ++ flushCode sd 16 ++
        [Emit.i (HostInstr.mov16RegImm c1block.cycle_count RAX)] ++
        [Emit.i (HostInstr.pop RBP), Emit.i HostInstr.ret] ++
        [Emit.cacheSetRX] ∧
      (∀ (s0 : JITState) (l1 l2 : List IRInstruction),
        dispatch_block s0 (l1 ++ l2) =
          (dispatch_block s0 l1).bind (fun t => dispatch_block t l2)) :=
  claim_C8 resetState 0 c1block c8state (by rfl)

end VUJIT
